import Mathlib

/-!
# Verification of the request/orchestration layer of the Spark SDK client

Shallow embedding of the TypeScript sources of the SDK:

* `getRetryTimeout`, `createRequestInit`, `calculateMd5Hash` and `_fetch`
  from `src/http.ts`;
* `Uri.encode`, `Uri.decode` and the path construction of `Uri.from`
  from `src/resources/base.ts`;
* `Authorization` (token normalisation, mode precedence, `asHeader`) from
  the auth module;
* the status pollers `Compilation.getStatus` (service resource),
  `Export.getStatus` and `Import.getStatus` (impex resource).

Modelling conventions:

* `undefined`-able JS record fields become `Option` fields; JS truthiness on
  strings (empty string is falsy) is `jsTruthyStr`.
* JS numbers are modelled as `ℚ` (all the arithmetic the claims touch is
  exact decimal arithmetic); `Math.ceil` is `Int.ceil`.
* `Math.random()` draws, network responses and OAuth token-endpoint results
  are oracles (`Nat`-indexed functions) supplied to the embedding.
* Byte buffers are `List Nat`; JSON payloads are carried opaquely as their
  serialised text (`Serializable` is an external encode/decode utility).
* The external crypto library (`createHash` in Node, `crypto.subtle` in the
  browser) is a parameter `digest : HashAlg → List Nat → String`; the source
  chooses the algorithm name passed to it.
-/

/-- JS truthiness of a possibly-undefined string: `undefined` and `""` are
falsy, every other string is truthy. -/
def jsTruthyStr : Option String → Bool
  | none => false
  | some s => !(s == "")

/-- JS truthiness of a possibly-undefined boolean. -/
def jsTruthyB : Option Bool → Bool
  | none => false
  | some b => b

/-- JS loose equality `p == x` between a possibly-undefined number and a
number: `undefined == x` is false. -/
def jsEqNum (p : Option ℚ) (x : ℚ) : Bool :=
  match p with
  | none => false
  | some v => v == x

/-- JS comparison `p < x` between a possibly-undefined number and a number:
`undefined < x` is false (NaN comparison). -/
def jsLtNum (p : Option ℚ) (x : ℚ) : Bool :=
  match p with
  | none => false
  | some v => v < x

/-- Header maps are JS objects: assignment replaces the value of an existing
key in place, otherwise appends the key. -/
def setHeader (hs : List (String × String)) (k v : String) : List (String × String) :=
  if hs.any (fun p => p.1 == k) then hs.map (fun p => if p.1 == k then (k, v) else p)
  else hs ++ [(k, v)]

/-- Header lookup. -/
def getHeader (hs : List (String × String)) (k : String) : Option String :=
  (hs.find? (fun p => p.1 == k)).map (fun p => p.2)

/-- `pat` matches at the head of `s` (plain, case-sensitive). -/
def leadsWith : List Char → List Char → Bool
  | [], _ => true
  | _ :: _, [] => false
  | p :: ps, c :: cs => p == c && leadsWith ps cs

/-- JS `String.replace` with a plain-string pattern: remove the first
occurrence of `pat` (here: first occurrence deleted, nothing inserted). -/
def removeFirstSub (pat : List Char) : List Char → List Char
  | [] => []
  | c :: cs =>
    if leadsWith pat (c :: cs) then List.drop pat.length (c :: cs)
    else c :: removeFirstSub pat cs

/-- `pat` matches at the head of `s` case-insensitively (JS `/…/i` with an
all-lowercase pattern). -/
def leadsWithCI : List Char → List Char → Bool
  | [], _ => true
  | _ :: _, [] => false
  | p :: ps, c :: cs => p == c.toLower && leadsWithCI ps cs

/-- JS `String.replace(/pat/i, '')`: remove the first case-insensitive
occurrence of the (lowercase) pattern `pat`. -/
def removeFirstCI (pat : List Char) : List Char → List Char
  | [] => []
  | c :: cs =>
    if leadsWithCI pat (c :: cs) then List.drop pat.length (c :: cs)
    else c :: removeFirstCI pat cs

/-- JS `String.trim()`: strip whitespace from both ends. -/
def trimChars (l : List Char) : List Char :=
  ((l.dropWhile Char.isWhitespace).reverse.dropWhile Char.isWhitespace).reverse

/-- Split a list at the first occurrence of `c`: returns the part before and
the part after, or `none` when `c` does not occur. -/
def splitAtFirst (c : Char) : List Char → Option (List Char × List Char)
  | [] => none
  | x :: xs =>
    if x == c then some ([], xs)
    else
      match splitAtFirst c xs with
      | none => none
      | some (a, b) => some (x :: a, b)

/-!
## `Authorization` (auth module)
-/

/-- The three authentication modes (`keyof OAuthMethod`). -/
inductive AuthKind where
  | apiKey
  | token
  | oauth
  deriving DecidableEq, Repr

/-- OAuth2 client-credentials pair held by the `OAuth` class. -/
structure OAuthCreds where
  clientId : String
  clientSecret : String
  deriving DecidableEq, Repr

/-- The `Authorization` class: at most one of an API key, a bearer token and
OAuth credentials.  The OAuth access-token cache (`OAuth.#accessToken`) is
mutable state and is threaded separately through the request executor. -/
structure Authorization where
  apiKey : Option String
  token : Option String
  oauth : Option OAuthCreds
  deriving DecidableEq, Repr

/-- The token normalisation done by the `Authorization` constructor:
`token?.replace(/bearer/i, '')?.trim()` — the first case-insensitive
occurrence of the substring "bearer" (anywhere in the token) is removed and
the result is whitespace-trimmed. -/
def normalizeBearerToken (t : String) : String :=
  String.mk (trimChars (removeFirstCI "bearer".data t.data))

/-- The `Authorization` constructor applied to explicit properties
(environment-variable fallbacks are not modelled). -/
def Authorization.make (apiKey token : Option String) (oauth : Option OAuthCreds) :
    Authorization :=
  { apiKey := apiKey, token := token.map normalizeBearerToken, oauth := oauth }

/-- `Authorization.type`: precedence apiKey > token > oauth, with JS
truthiness (an empty-string key or token does not count). -/
def Authorization.type (a : Authorization) : Option AuthKind :=
  if jsTruthyStr a.apiKey then some .apiKey
  else if jsTruthyStr a.token then some .token
  else if a.oauth.isSome then some .oauth
  else none

/-- `Authorization.asHeader`; `accessToken` is the current OAuth token cache.
In the OAuth branch the source interpolates `this.oauth.accessToken`, which
prints `undefined` when no token has been retrieved yet. -/
def Authorization.asHeader (a : Authorization) (accessToken : Option String) :
    List (String × String) :=
  if jsTruthyStr a.apiKey then [("x-synthetic-key", a.apiKey.getD "")]
  else if jsTruthyStr a.token then [("Authorization", "Bearer " ++ a.token.getD "")]
  else if a.oauth.isSome then
    [("Authorization", "Bearer " ++ accessToken.getD "undefined")]
  else []

/-!
## Errors (`SparkSdkError` / `SparkApiError`)

`error.ts` is not among the provided sources; the error data model is
modelled from the spec: an `SdkError` is a client-side failure carrying a
message and an optional cause and never an HTTP status, an `ApiError`
carries the status and a kind given by the fixed classification table.
-/

/-- Modelled from the spec: the `ApiError` taxonomy (status → kind table). -/
inductive ApiErrKind where
  | internet
  | badRequest
  | unauthorized
  | forbidden
  | notFound
  | conflict
  | rateLimit
  | internalServer
  | serviceUnavailable
  | unknownApi
  deriving DecidableEq, Repr

/-- Modelled from the spec: `SparkApiError.when` classification table
(`error.ts` is not among the provided sources). -/
def SparkApiError.when (status : Nat) : ApiErrKind :=
  if status == 0 then .internet
  else if status == 400 then .badRequest
  else if status == 401 then .unauthorized
  else if status == 403 then .forbidden
  else if status == 404 then .notFound
  else if status == 409 then .conflict
  else if status == 429 then .rateLimit
  else if status == 500 then .internalServer
  else if status == 503 then .serviceUnavailable
  else .unknownApi

/-- Compilation status payload (`CompilationStatus.response_data`): the
poller reads the `progress` and `status` fields. -/
structure CompilationStatus where
  status : String
  last_error_message : String := ""
  progress : Option ℚ
  deriving DecidableEq, Repr

/-- Error causes appearing in the claims: the offending multipart item, the
request/response snapshot attached by `_fetch` (abbreviated to the parts the
claims inspect), or the last compilation status response. -/
inductive ErrCause where
  | multipartItem (name : String)
  | httpExchange (requestHeaders : List (String × String)) (responseStatus : Nat)
  | compilationResponse (rsp : CompilationStatus)
  deriving DecidableEq, Repr

/-- `SparkSdkError` / `SparkApiError`.  An SDK error never carries an HTTP
status; an API error always does. -/
inductive SparkErr where
  | sdk (message : String) (cause : Option ErrCause)
  | api (kind : ApiErrKind) (status : Nat) (message : String) (cause : Option ErrCause)
  deriving DecidableEq, Repr

/-- The HTTP status carried by an error, if any. -/
def SparkErr.statusOf : SparkErr → Option Nat
  | .sdk _ _ => none
  | .api _ s _ _ => some s

/-- The cause carried by an error, if any. -/
def SparkErr.causeOf : SparkErr → Option ErrCause
  | .sdk _ c => c
  | .api _ _ _ c => c

/-- Whether the error is the client-side `SdkError` kind. -/
def SparkErr.isSdk : SparkErr → Bool
  | .sdk _ _ => true
  | .api _ _ _ _ => false

/-!
## `getRetryTimeout` (`src/http.ts`)
-/

/-- `getRetryTimeout(retries, baseInterval = 1)` from `src/http.ts`, with the
`Math.random()` draw (a value in `[0, 1)`) made an explicit argument.
Note `Math.pow(2, retries - 1)` is a JS float power, so for `retries = 0`
the exponent is `-1`; the exponent is therefore an integer, not a `Nat`. -/
def getRetryTimeout (retries : Nat) (baseInterval : ℚ := 1) (random : ℚ) : ℤ :=
  let RETRY_RANDOMIZATION_FACTOR : ℚ := 1/2
  let minRandomization := 1 - RETRY_RANDOMIZATION_FACTOR
  let maxRandomization := 1 + RETRY_RANDOMIZATION_FACTOR
  let randomization := random * (maxRandomization - minRandomization) + minRandomization
  let exponential : ℚ := (2 : ℚ) ^ ((retries : ℤ) - 1)
  Int.ceil (exponential * baseInterval * 1000 * randomization)

/-- The spec's own words for the 429 backoff formula:
`ceil(2^(retries-1) * baseIntervalMs * jitter)`, with the base interval
given in milliseconds and `jitter` drawn from `[0.5, 1.5]`.  Used to compare
the executor's actual sleep against the spec's formula. -/
def Spec.backoffMs (retries : Nat) (baseIntervalMs : ℚ) (jitter : ℚ) : ℤ :=
  Int.ceil ((2 : ℚ) ^ ((retries : ℤ) - 1) * baseIntervalMs * jitter)

/-!
## Request construction (`createRequestInit`, `src/http.ts`)
-/

/-- The algorithm name handed to the external crypto library. -/
inductive HashAlg where
  | sha1
  | md5
  deriving DecidableEq, Repr

/-- `calculateMd5Hash` from `src/http.ts`: despite its name, both the Node
branch (`createHash('sha1')`) and the browser branch
(`crypto.subtle.digest('SHA-1', …)`) ask the external crypto library for the
SHA-1 digest of the data. -/
def calculateMd5Hash (digest : HashAlg → List Nat → String) (data : List Nat) : String :=
  digest .sha1 data

/-- A `Multipart` item (`src/http.ts`): either inline serialisable data or a
file stream.  The file stream is modelled by the byte buffer `readStream`
would produce; `data` is carried as its serialised text. -/
structure Multipart where
  name : String
  data : Option String := none
  fileStream : Option (List Nat) := none
  fileName : Option String := none
  contentType : Option String := none
  deriving DecidableEq, Repr

/-- One `formData.append` call. -/
inductive FormEntry where
  | fileField (name : String) (content : List Nat) (filename contentType : String)
  | dataField (name value : String)
  deriving DecidableEq, Repr

/-- The body variants `createRequestInit` can produce. -/
inductive ReqBody where
  | jsonText (payload : String)
  | urlParams (payload : String)
  | byteStream (bytes : List Nat)
  | formData (entries : List FormEntry)
  deriving DecidableEq, Repr

/-- The request options (`HttpOptions` in `src/http.ts`) that
`createRequestInit` and `_fetch` consume. -/
structure HttpOpts where
  method : String := "GET"
  headers : List (String × String) := []
  contentType : Option String := none
  body : Option String := none
  file : Option (List Nat) := none
  multiparts : Option (List Multipart) := none
  retries : Nat := 0

/-- The multipart loop of `createRequestInit`: buffers each file stream,
computes its digest into the shared `content-md5` header (later file parts
overwrite earlier ones), serialises data parts, and fails on an item with
neither. -/
def multipartLoop (digest : HashAlg → List Nat → String) :
    List Multipart → List (String × String) → List FormEntry →
    Except SparkErr (List (String × String) × List FormEntry)
  | [], hs, acc => .ok (hs, acc.reverse)
  | item :: rest, hs, acc =>
    match item.fileStream with
    | some buffer =>
      let hs' := setHeader hs "content-md5" (calculateMd5Hash digest buffer)
      multipartLoop digest rest hs'
        (.fileField item.name buffer (item.fileName.getD "file")
          (item.contentType.getD "application/octet-stream") :: acc)
    | none =>
      if jsTruthyStr item.data then
        multipartLoop digest rest hs (.dataField item.name (item.data.getD "") :: acc)
      else
        .error (.sdk "Multipart item must have either serializable body or fileStream"
          (some (.multipartItem item.name)))

/-- The body-selection block of `createRequestInit` (the awaited IIFE in
`src/http.ts`): returns the effective content type, the encoded body, and
the header map after any `content-md5` mutations.  The multipart boundary
is generated by the external form-data library and is kept abstract. -/
def encodeBody (digest : HashAlg → List Nat → String) (opts : HttpOpts) :
    Except SparkErr (String × ReqBody × List (String × String)) :=
  match opts.multiparts with
  | some parts =>
    match multipartLoop digest parts opts.headers [] with
    | .error e => .error e
    | .ok (hs, entries) =>
      .ok ("multipart/form-data; boundary=<boundary>", .formData entries, hs)
  | none =>
    let contentType := opts.contentType.getD "application/json"
    if contentType = "application/json" ∨ contentType = "application/json-patch+json" then
      .ok (contentType, .jsonText (opts.body.getD "null"), opts.headers)
    else if contentType = "application/x-www-form-urlencoded" then
      .ok (contentType, .urlParams (opts.body.getD "null"), opts.headers)
    else if contentType = "application/octet-stream" then
      match opts.file with
      | some bytes => .ok (contentType, .byteStream bytes, opts.headers)
      | none => .error (.sdk "fileStream required for application/octet-stream content type" none)
    else .error (.sdk ("Unsupported content type : " ++ contentType) none)

/-- The wire request produced by `createRequestInit`. -/
structure ReqInit where
  method : String
  body : Option ReqBody
  headers : List (String × String)
  deriving DecidableEq, Repr

/-- `createRequestInit` from `src/http.ts`: encode the body, drop it for GET
requests, and merge headers as `{...headers, 'Content-Type': contentType,
...config.auth?.asHeader}` (later spreads override). -/
def createRequestInit (digest : HashAlg → List Nat → String) (opts : HttpOpts)
    (auth : Option Authorization) (accessToken : Option String) :
    Except SparkErr ReqInit :=
  match encodeBody digest opts with
  | .error e => .error e
  | .ok (contentType, body, hs) =>
    let base := setHeader hs "Content-Type" contentType
    .ok { method := opts.method,
          body := if opts.method = "GET" then none else some body,
          headers :=
            match auth with
            | some a => (a.asHeader accessToken).foldl (fun acc p => setHeader acc p.1 p.2) base
            | none => base }

/-!
## The request executor `_fetch` (`src/http.ts`)
-/

/-- A network response, reduced to the fields the retry logic inspects: the
status code and the parsed `x-retry-after` header (in seconds), `none` when
the header is absent. -/
structure HttpRsp where
  status : Nat
  retryAfter : Option ℚ := none
  deriving DecidableEq, Repr

/-- A before/after interceptor pair. -/
structure Interceptor where
  beforeRequest : HttpOpts → HttpOpts
  afterRequest : HttpRsp → HttpRsp

/-- The client configuration fields `_fetch` consumes.  Note there is no
retry-interval field: the executor's 429 backoff has no configured base. -/
structure Config where
  maxRetries : Nat
  auth : Option Authorization := none
  interceptors : List Interceptor := []

/-- `config.auth?.type`. -/
def Config.authType (cfg : Config) : Option AuthKind :=
  cfg.auth.bind Authorization.type

/-- The oracles feeding one `_fetch` run: the network response of each
attempt, the token produced by each OAuth token-endpoint exchange
(`OAuth2.requestAccessToken` is not among the provided sources and is
modelled from the spec as an opaque exchange yielding a fresh token), and
each `Math.random()` draw. -/
structure FetchEnv where
  responses : Nat → HttpRsp
  tokens : Nat → String
  jitters : Nat → ℚ

/-- Trace record of one dispatched attempt. -/
structure SentReq where
  retries : Nat
  method : String
  headers : List (String × String)
  body : Option ReqBody
  deriving DecidableEq, Repr

/-- The observable outcome of a `_fetch` run: final result, the attempts
dispatched, the number of `refreshToken` calls, the sleeps performed (ms). -/
structure FetchOutcome where
  result : Except SparkErr HttpRsp
  sent : List SentReq
  refreshes : Nat
  sleeps : List ℚ

/-- Fold of the registered `beforeRequest` interceptors. -/
def applyBefore (cfg : Config) (opts : HttpOpts) : HttpOpts :=
  cfg.interceptors.foldl (fun acc i => i.beforeRequest acc) opts

/-- Fold of the registered `afterRequest` interceptors. -/
def applyAfter (cfg : Config) (rsp : HttpRsp) : HttpRsp :=
  cfg.interceptors.foldl (fun acc i => i.afterRequest acc) rsp

/-- One `_fetch` activation (`src/http.ts`), fuelled: apply beforeRequest
interceptors, build the request, read the response, apply afterRequest
interceptors, then either return it (status < 400), refresh-and-resend
(401 ∧ OAuth ∧ retries < maxRetries), sleep-and-resend (429 ∧ retries <
maxRetries), or throw the classified error.  `attempt` and `refreshIdx`
index the oracles; `accessToken` is the OAuth token cache, replaced by
`refreshToken`. -/
def fetchGo (digest : HashAlg → List Nat → String) (env : FetchEnv) (cfg : Config)
    (resource : String) (opts : HttpOpts) (attempt refreshIdx : Nat)
    (accessToken : Option String) : Nat → FetchOutcome
  | 0 => { result := .error (.sdk "retry budget exhausted" none),
           sent := [], refreshes := 0, sleeps := [] }
  | fuel + 1 =>
    let fetchOptions := applyBefore cfg opts
    match createRequestInit digest fetchOptions cfg.auth accessToken with
    | .error e => { result := .error e, sent := [], refreshes := 0, sleeps := [] }
    | .ok requestInit =>
      let httpResponse := applyAfter cfg (env.responses attempt)
      let sentReq : SentReq :=
        { retries := fetchOptions.retries, method := requestInit.method,
          headers := requestInit.headers, body := requestInit.body }
      if 400 ≤ httpResponse.status then
        if httpResponse.status = 401 ∧ cfg.authType = some AuthKind.oauth ∧
            fetchOptions.retries < cfg.maxRetries then
          let newToken := env.tokens refreshIdx
          let rest := fetchGo digest env cfg resource
            { fetchOptions with retries := fetchOptions.retries + 1 }
            (attempt + 1) (refreshIdx + 1) (some newToken) fuel
          { result := rest.result, sent := sentReq :: rest.sent,
            refreshes := rest.refreshes + 1, sleeps := rest.sleeps }
        else if httpResponse.status = 429 ∧ fetchOptions.retries < cfg.maxRetries then
          let retryTimeout : ℚ :=
            match httpResponse.retryAfter with
            | some seconds => seconds * 1000
            | none => (getRetryTimeout fetchOptions.retries 1 (env.jitters attempt) : ℚ)
          let rest := fetchGo digest env cfg resource
            { fetchOptions with retries := fetchOptions.retries + 1 }
            (attempt + 1) refreshIdx accessToken fuel
          { result := rest.result, sent := sentReq :: rest.sent,
            refreshes := rest.refreshes, sleeps := retryTimeout :: rest.sleeps }
        else
          { result := .error (.api (SparkApiError.when httpResponse.status)
              httpResponse.status ("failed to fetch <" ++ resource ++ ">")
              (some (.httpExchange requestInit.headers httpResponse.status))),
            sent := [sentReq], refreshes := 0, sleeps := [] }
      else
        { result := .ok httpResponse, sent := [sentReq], refreshes := 0, sleeps := [] }

/-- `_fetch`: the fuel is the retry budget remaining from the entry retry
count, which the recursion never exhausts (each resend increments
`retries`, and resends are guarded by `retries < maxRetries`). -/
def _fetch (digest : HashAlg → List Nat → String) (env : FetchEnv) (cfg : Config)
    (resource : String) (opts : HttpOpts) (attempt refreshIdx : Nat)
    (accessToken : Option String) : FetchOutcome :=
  fetchGo digest env cfg resource opts attempt refreshIdx accessToken
    (cfg.maxRetries + 1 - opts.retries)

/-!
## Service locators (`Uri`, `src/resources/base.ts`)
-/

/-- `UriParams` from `src/resources/base.ts`. -/
structure UriParams where
  folder : Option String := none
  service : Option String := none
  serviceId : Option String := none
  version : Option String := none
  versionId : Option String := none
  proxy : Option String := none
  public : Option Bool := none
  deriving DecidableEq, Repr

/-- `proxy.startsWith('/') ? proxy.slice(1) : proxy`. -/
def stripLeadingSlash (s : String) : String :=
  match s.data with
  | '/' :: rest => String.mk rest
  | _ => s

/-- The path construction of `Uri.from` (`src/resources/base.ts`): the
`public` modifier first, then folder+service, else versionId, else proxy
(with one leading slash stripped); `serviceId` is never consulted; the
endpoint is appended unless a proxy is set. -/
def Uri.resolvePath (uri : UriParams) (version : String := "api/v3")
    (endpoint : String := "") : String :=
  let path := version
  let path := if jsTruthyB uri.public then path ++ "/public" else path
  let path :=
    if jsTruthyStr uri.folder ∧ jsTruthyStr uri.service then
      path ++ "/folders/" ++ uri.folder.getD "" ++ "/services/" ++ uri.service.getD ""
    else if jsTruthyStr uri.versionId then
      path ++ "/version/" ++ uri.versionId.getD ""
    else if jsTruthyStr uri.proxy then
      path ++ "/proxy/" ++ stripLeadingSlash (uri.proxy.getD "")
    else path
  if ¬endpoint = "" ∧ ¬jsTruthyStr uri.proxy then path ++ "/" ++ endpoint else path

/-- The final URL string `Uri.from` builds: `${base}/${path}` (the URL-parse
validation is external). -/
def Uri.fromValue (uri : UriParams) (base : String) (version : String := "api/v3")
    (endpoint : String := "") : String :=
  base ++ "/" ++ Uri.resolvePath uri version endpoint

/-- Modelled from the spec: `Utils.sanitizeUri` (`utils.ts` is not among the
provided sources).  The spec's decode grammar accepts locators such as
`folder/service[version]` verbatim, so sanitisation is modelled as trimming
whitespace and leading/trailing slashes. -/
def sanitizeUri (l : List Char) : List Char :=
  ((l.dropWhile (fun c => c.isWhitespace || c == '/')).reverse.dropWhile
    (fun c => c.isWhitespace || c == '/')).reverse

/-- The anchored regex `^([^\/]+)\/([^[]+)(?:\[(.*?)\])?$` of `Uri.decode`:
group 1 is everything before the first slash (nonempty), group 2 everything
from there up to the first `[` (nonempty), and an optional bracketed
version whose closing bracket must be the final character. -/
def matchLocator (u : List Char) : Option (List Char × List Char × Option (List Char)) :=
  match splitAtFirst '/' u with
  | none => none
  | some (g1, rest) =>
    if g1 = [] then none
    else
      match splitAtFirst '[' rest with
      | none => if rest = [] then none else some (g1, rest, none)
      | some (g2, after) =>
        if g2 = [] then none
        else if after.getLast? = some ']' then some (g1, g2, some after.dropLast)
        else none

/-- `Uri.decode` on the character list: sanitise, delete the first
occurrences of `folders/` and `services/`, match the locator grammar, and
map the reserved group-1 words `version` and `service` to id locators.  An
empty captured version is `version || undefined`, hence dropped. -/
def Uri.decodeCh (u0 : List Char) : UriParams :=
  let u := removeFirstSub "services/".data (removeFirstSub "folders/".data (sanitizeUri u0))
  match matchLocator u with
  | none => {}
  | some (g1, g2, g3) =>
    if g1 = "version".data then { versionId := some (String.mk g2) }
    else if g1 = "service".data then { serviceId := some (String.mk g2) }
    else
      { folder := some (String.mk g1), service := some (String.mk g2),
        version :=
          match g3 with
          | some [] => none
          | some v => some (String.mk v)
          | none => none }

/-- `Uri.decode` from `src/resources/base.ts`. -/
def Uri.decode (uri : String) : UriParams :=
  Uri.decodeCh uri.data

/-- `Uri.encode` from `src/resources/base.ts`: priority versionId >
serviceId > folder+service (bracketed version only in that form); anything
else — in particular a proxy-only locator — encodes to the empty string. -/
def Uri.encode (uri : UriParams) (long : Bool := true) : String :=
  if jsTruthyStr uri.versionId then "version/" ++ uri.versionId.getD ""
  else if jsTruthyStr uri.serviceId then "service/" ++ uri.serviceId.getD ""
  else if jsTruthyStr uri.folder ∧ jsTruthyStr uri.service then
    (if long then "folders/" ++ uri.folder.getD "" ++ "/services" else uri.folder.getD "") ++
      "/" ++ uri.service.getD "" ++
      (if jsTruthyStr uri.version then "[" ++ uri.version.getD "" ++ "]" else "")
  else ""

/-!
## The status pollers

`Compilation.getStatus` (service resource) and `Export.getStatus` /
`Import.getStatus` (impex resource).  The status fetcher is an oracle
indexed by the number of status requests already made; `jit` supplies the
`Math.random()` draw of each backoff sleep.
-/

/-- Outcome of a compilation status poll: final result, number of status
requests made, sleeps performed (ms). -/
structure CompPollOut where
  result : Except SparkErr CompilationStatus
  polls : Nat
  sleeps : List ℤ

/-- The do-while loop of `Compilation.getStatus`: return as soon as
`progress == 100`; otherwise sleep `getRetryTimeout(retries, retryInterval)`,
re-read the status, and loop while `progress < 100 && retries < maxRetries`;
on exit return the response only when its `status` is `'Success'`, else
fail with the timeout `SdkError` carrying the response as cause. -/
def compilationGo (statusOf : Nat → CompilationStatus) (jit : Nat → ℚ)
    (maxRetries : Nat) (retryInterval : ℚ) :
    Nat → Nat → CompilationStatus → CompPollOut
  | 0, _, _ =>
    { result := .error (.sdk "retry budget exhausted" none), polls := 0, sleeps := [] }
  | fuel + 1, retries, response =>
    if jsEqNum response.progress 100 then
      { result := .ok response, polls := 0, sleeps := [] }
    else
      let sleep := getRetryTimeout retries retryInterval (jit retries)
      let retries' := retries + 1
      let response' := statusOf retries'
      if jsLtNum response'.progress 100 ∧ retries' < maxRetries then
        let rest := compilationGo statusOf jit maxRetries retryInterval fuel retries' response'
        { result := rest.result, polls := rest.polls + 1, sleeps := sleep :: rest.sleeps }
      else if response'.status = "Success" then
        { result := .ok response', polls := 1, sleeps := [sleep] }
      else
        { result := .error (.sdk "compilation job status check timed out"
            (some (.compilationResponse response'))),
          polls := 1, sleeps := [sleep] }

/-- `Compilation.getStatus`: one initial status request, then the do-while
loop.  The fuel is an upper bound on loop iterations that the guard
`retries < maxRetries` keeps the recursion from exhausting. -/
def Compilation.getStatus (statusOf : Nat → CompilationStatus) (jit : Nat → ℚ)
    (maxRetries : Nat) (retryInterval : ℚ := 2) : CompPollOut :=
  let out := compilationGo statusOf jit maxRetries retryInterval (maxRetries + 1) 0 (statusOf 0)
  { out with polls := out.polls + 1 }

/-- Export job status payload, reduced to the field the poller inspects. -/
structure ExportResult where
  status : String
  deriving DecidableEq, Repr

/-- Outcome of an export/import status poll. -/
structure ExpPollOut where
  result : Except SparkErr ExportResult
  polls : Nat
  sleeps : List ℤ

/-- The while loop of `Export.getStatus`: while `retries < maxRetries` read
the status and return it when `'closed'` or `'completed'`; otherwise
increment `retries`, sleep `getRetryTimeout(retries, retryInterval)` and
loop; on exhaustion throw the timeout `SdkError` — with no cause. -/
def exportGo (statusOf : Nat → ExportResult) (jit : Nat → ℚ)
    (maxRetries : Nat) (retryInterval : ℚ) : Nat → Nat → ExpPollOut
  | 0, _ =>
    { result := .error (.sdk "retry budget exhausted" none), polls := 0, sleeps := [] }
  | fuel + 1, retries =>
    if retries < maxRetries then
      let response := statusOf retries
      if response.status = "closed" ∨ response.status = "completed" then
        { result := .ok response, polls := 1, sleeps := [] }
      else
        let retries' := retries + 1
        let timeout := getRetryTimeout retries' retryInterval (jit retries')
        let rest := exportGo statusOf jit maxRetries retryInterval fuel retries'
        { result := rest.result, polls := rest.polls + 1, sleeps := timeout :: rest.sleeps }
    else
      { result := .error (.sdk
          ("export job status timed out after " ++ toString retries ++ " retries") none),
        polls := 0, sleeps := [] }

/-- `Export.getStatus` (impex resource). -/
def Export.getStatus (statusOf : Nat → ExportResult) (jit : Nat → ℚ)
    (maxRetries : Nat) (retryInterval : ℚ := 2) : ExpPollOut :=
  exportGo statusOf jit maxRetries retryInterval (maxRetries + 1) 0

/-- Import job status payload, reduced to the field the poller inspects. -/
structure ImportResult where
  status : String
  deriving DecidableEq, Repr

/-- Outcome of an import status poll. -/
structure ImpPollOut where
  result : Except SparkErr ImportResult
  polls : Nat
  sleeps : List ℤ

/-- The while loop of `Import.getStatus`; identical to the export one up to
the error message, which again carries no cause. -/
def importGo (statusOf : Nat → ImportResult) (jit : Nat → ℚ)
    (maxRetries : Nat) (retryInterval : ℚ) : Nat → Nat → ImpPollOut
  | 0, _ =>
    { result := .error (.sdk "retry budget exhausted" none), polls := 0, sleeps := [] }
  | fuel + 1, retries =>
    if retries < maxRetries then
      let response := statusOf retries
      if response.status = "closed" ∨ response.status = "completed" then
        { result := .ok response, polls := 1, sleeps := [] }
      else
        let retries' := retries + 1
        let timeout := getRetryTimeout retries' retryInterval (jit retries')
        let rest := importGo statusOf jit maxRetries retryInterval fuel retries'
        { result := rest.result, polls := rest.polls + 1, sleeps := timeout :: rest.sleeps }
    else
      { result := .error (.sdk
          ("import job status timed out after " ++ toString retries ++ " retries") none),
        polls := 0, sleeps := [] }

/-- `Import.getStatus` (impex resource). -/
def Import.getStatus (statusOf : Nat → ImportResult) (jit : Nat → ℚ)
    (maxRetries : Nat) (retryInterval : ℚ := 2) : ImpPollOut :=
  importGo statusOf jit maxRetries retryInterval (maxRetries + 1) 0

/-- A concrete instance of the external digest collaborator that records the
algorithm it was asked for; real MD5 and SHA-1 likewise disagree on
essentially every input. -/
def tagDigest (alg : HashAlg) (data : List Nat) : String :=
  (match alg with
   | .sha1 => "sha1:"
   | .md5 => "md5:") ++ toString data

/-- The content of the last multipart item carrying a file stream (later
file parts overwrite the shared `content-md5` header). -/
def lastFileContent : List Multipart → Option (List Nat)
  | [] => none
  | item :: rest =>
    match lastFileContent rest with
    | some b => some b
    | none => item.fileStream

/-- Header lookup through a `createRequestInit` result (`none` on error). -/
def reqInitHeaderOf (r : Except SparkErr ReqInit) (k : String) : Option String :=
  match r with
  | .ok ri => getHeader ri.headers k
  | .error _ => none

/-- Locator-name well-formedness under which encoding round-trips: nonempty
and free of `/`, `[` and whitespace. -/
def wfName (s : String) : Prop :=
  s.data ≠ [] ∧ ∀ c ∈ s.data, c ≠ '/' ∧ c ≠ '[' ∧ c.isWhitespace = false

/-- `containsCI pat l`: some position of `l` starts a case-insensitive
occurrence of the (lowercase) pattern. -/
def containsCI (pat : List Char) : List Char → Bool
  | [] => pat.isEmpty
  | c :: cs => leadsWithCI pat (c :: cs) || containsCI pat cs

/-- `String.trim` on strings. -/
def trimStr (s : String) : String :=
  String.mk (trimChars s.data)

/-- Body lookup through a `createRequestInit` result (`none` on error). -/
def reqInitBodyOf (r : Except SparkErr ReqInit) : Option (Option ReqBody) :=
  match r with
  | .ok ri => some ri.body
  | .error _ => none

/-- Decidable equality for `Except` results. -/
instance {ε α : Type} [DecidableEq ε] [DecidableEq α] : DecidableEq (Except ε α) := fun x y =>
  match x, y with
  | .error a, .error b =>
    if h : a = b then .isTrue (by rw [h]) else .isFalse (fun hh => h (Except.error.inj hh))
  | .error _, .ok _ => .isFalse (fun hh => Except.noConfusion hh)
  | .ok _, .error _ => .isFalse (fun hh => Except.noConfusion hh)
  | .ok a, .ok b =>
    if h : a = b then .isTrue (by rw [h]) else .isFalse (fun hh => h (Except.ok.inj hh))

/-!
## Helper lemmas
-/

theorem getHeader_nil (k : String) : getHeader [] k = none := rfl

theorem getHeader_cons (p : String × String) (t : List (String × String)) (k : String) :
    getHeader (p :: t) k = if (p.1 == k) = true then some p.2 else getHeader t k := by
  unfold getHeader
  cases hq : (p.1 == k) <;> simp [List.find?, hq]

theorem getHeader_map_set (hs : List (String × String)) (k v : String) :
    getHeader (hs.map (fun p => if p.1 == k then (k, v) else p)) k =
      if hs.any (fun p => p.1 == k) then some v else none := by
  induction hs with
  | nil => simp [getHeader]
  | cons p t ih =>
    by_cases hp : (p.1 == k) = true
    · rw [List.map_cons, if_pos hp, getHeader_cons]
      simp [hp, List.any_cons]
    · have hp0 : (p.1 == k) = false := Bool.eq_false_iff.mpr hp
      rw [List.map_cons, if_neg hp, getHeader_cons, if_neg (by simp [hp]), List.any_cons, hp0]
      simp only [Bool.false_or]
      simpa using ih

theorem getHeader_map_set_ne (hs : List (String × String)) (k v k' : String)
    (hne : k' ≠ k) :
    getHeader (hs.map (fun p => if p.1 == k then (k, v) else p)) k' = getHeader hs k' := by
  induction hs with
  | nil => rfl
  | cons p t ih =>
    by_cases hp : (p.1 == k) = true
    · have hp' : p.1 = k := by simpa using hp
      have h1 : ((k, v).1 == k') = false := by
        simp only [beq_eq_false_iff_ne, ne_eq]
        exact fun h => hne h.symm
      have h2 : (p.1 == k') = false := by
        rw [hp']
        simp only [beq_eq_false_iff_ne, ne_eq]
        exact fun h => hne h.symm
      rw [List.map_cons, if_pos hp, getHeader_cons, getHeader_cons, h1, h2]
      simpa using ih
    · rw [List.map_cons, if_neg hp, getHeader_cons, getHeader_cons]
      cases hq : (p.1 == k')
      · simp only [hq, Bool.false_eq_true, if_false]
        simpa using ih
      · simp [hq]

theorem getHeader_none_of_no_key (hs : List (String × String)) (k : String)
    (h : hs.any (fun p => p.1 == k) = false) : getHeader hs k = none := by
  induction hs with
  | nil => rfl
  | cons p t ih =>
    rw [List.any_cons] at h
    rcases Bool.or_eq_false_iff.mp h with ⟨h1, h2⟩
    rw [getHeader_cons, h1]
    simpa using ih h2

theorem getHeader_append_single (hs : List (String × String)) (k v : String) :
    getHeader (hs ++ [(k, v)]) k =
      match getHeader hs k with
      | some w => some w
      | none => some v := by
  induction hs with
  | nil => simp [getHeader_nil, getHeader_cons]
  | cons p t ih =>
    rw [List.cons_append, getHeader_cons, getHeader_cons]
    cases hq : (p.1 == k) <;> simp [ih]

theorem getHeader_append_single_ne (hs : List (String × String)) (k v k' : String)
    (hne : k' ≠ k) : getHeader (hs ++ [(k, v)]) k' = getHeader hs k' := by
  induction hs with
  | nil =>
    rw [getHeader_nil, List.nil_append, getHeader_cons]
    simp only [beq_eq_false_iff_ne, ne_eq]
    have : ((k, v).1 == k') = false := by
      simp only [beq_eq_false_iff_ne, ne_eq]
      exact fun h => hne h.symm
    rw [this]
    simp [getHeader_nil]
  | cons p t ih =>
    rw [List.cons_append, getHeader_cons, getHeader_cons]
    cases hq : (p.1 == k') <;> simp [ih]

theorem getHeader_setHeader_self (hs : List (String × String)) (k v : String) :
    getHeader (setHeader hs k v) k = some v := by
  unfold setHeader
  split
  case isTrue h => rw [getHeader_map_set, if_pos h]
  case isFalse h =>
    rw [getHeader_append_single, getHeader_none_of_no_key hs k (Bool.eq_false_iff.mpr h)]

theorem getHeader_setHeader_ne (hs : List (String × String)) (k v k' : String)
    (hne : k' ≠ k) : getHeader (setHeader hs k v) k' = getHeader hs k' := by
  unfold setHeader
  split
  case isTrue h => exact getHeader_map_set_ne hs k v k' hne
  case isFalse h => exact getHeader_append_single_ne hs k v k' hne

theorem removeFirstCI_of_not_contains (pat : List Char) :
    ∀ l, containsCI pat l = false → removeFirstCI pat l = l := by
  intro l
  induction l with
  | nil => intro _; rfl
  | cons c cs ih =>
    intro h
    rw [containsCI, Bool.or_eq_false_iff] at h
    rw [removeFirstCI, if_neg (by simp [h.1]), ih h.2]

theorem strData_append (a b : String) : (a ++ b).data = a.data ++ b.data := by
  cases a; cases b; rfl

theorem strMk_data (s : String) : String.mk s.data = s := rfl

/-!
## C7 — `Uri.from` path resolution
-/

/-- C7: the resolved path follows the fixed addressing priority: when both
`folder` and `service` are set the path emits
`folders/{folder}/services/{service}`; else a set `versionId` emits
`version/{versionId}`; else a set `proxy` emits `proxy/{proxy}` with one
leading slash stripped; `public` inserts a `public` segment right after the
version prefix, before any of these; and a nonempty `endpoint` segment is
appended exactly when no proxy is set (`serviceId` never contributes). -/
theorem uri_resolvePath_addressing (uri : UriParams) (version endpoint : String) :
    (jsTruthyStr uri.folder = true → jsTruthyStr uri.service = true →
      jsTruthyStr uri.proxy = false → endpoint ≠ "" →
      Uri.resolvePath uri version endpoint =
        (if jsTruthyB uri.public then version ++ "/public" else version) ++
          "/folders/" ++ uri.folder.getD "" ++ "/services/" ++ uri.service.getD "" ++
          "/" ++ endpoint) ∧
    (¬(jsTruthyStr uri.folder = true ∧ jsTruthyStr uri.service = true) →
      jsTruthyStr uri.versionId = true →
      jsTruthyStr uri.proxy = false → endpoint ≠ "" →
      Uri.resolvePath uri version endpoint =
        (if jsTruthyB uri.public then version ++ "/public" else version) ++
          "/version/" ++ uri.versionId.getD "" ++ "/" ++ endpoint) ∧
    (¬(jsTruthyStr uri.folder = true ∧ jsTruthyStr uri.service = true) →
      jsTruthyStr uri.versionId = false → jsTruthyStr uri.proxy = true →
      Uri.resolvePath uri version endpoint =
        (if jsTruthyB uri.public then version ++ "/public" else version) ++
          "/proxy/" ++ stripLeadingSlash (uri.proxy.getD "")) ∧
    (jsTruthyStr uri.proxy = true →
      Uri.resolvePath uri version endpoint = Uri.resolvePath uri version "") ∧
    (jsTruthyStr uri.proxy = false → endpoint ≠ "" →
      Uri.resolvePath uri version endpoint = Uri.resolvePath uri version "" ++ "/" ++ endpoint) := by
  refine ⟨?_, ?_, ?_, ?_, ?_⟩
  · intro h1 h2 h3 h4
    simp [Uri.resolvePath, h1, h2, h3, h4]
  · intro h1 h2 h3 h4
    simp [Uri.resolvePath, h1, h2, h3, h4]
  · intro h1 h2 h3
    simp [Uri.resolvePath, h1, h2, h3]
  · intro h
    simp [Uri.resolvePath, h]
  · intro h1 h2
    simp [Uri.resolvePath, h1, h2]

/-- C7 witness: a folder+service locator with a nonempty endpoint. -/
theorem uri_resolvePath_addressing_witness :
    Uri.resolvePath { folder := some "f", service := some "s" } "api/v3" "execute" =
      "api/v3/folders/f/services/s/execute" :=
  ((uri_resolvePath_addressing { folder := some "f", service := some "s" } "api/v3" "execute").1
    (by decide) (by decide) (by decide) (by decide)).trans (by decide)

/-!
## C9 — bearer-token normalisation
-/

theorem normalizeBearer_leading (t : String) :
    normalizeBearerToken ("Bearer " ++ t) = trimStr t := by
  unfold normalizeBearerToken trimStr
  rw [strData_append]
  have hdl : "Bearer ".data = 'B' :: 'e' :: 'a' :: 'r' :: 'e' :: 'r' :: ' ' :: [] := by decide
  rw [hdl]
  have hlead : leadsWithCI "bearer".data
      ('B' :: 'e' :: 'a' :: 'r' :: 'e' :: 'r' :: ' ' :: ([] ++ t.data)) = true := by
    simp only [leadsWithCI]
    decide
  simp only [List.cons_append, List.nil_append] at hlead ⊢
  rw [removeFirstCI, if_pos hlead]
  have hdrop : List.drop "bearer".data.length
      ('B' :: 'e' :: 'a' :: 'r' :: 'e' :: 'r' :: ' ' :: t.data) = ' ' :: t.data := by
    simp [List.drop]
  rw [hdrop]
  unfold trimChars
  rw [List.dropWhile_cons, if_pos (by decide)]

/-- C9 (amended): in token mode the header is exactly
`Authorization: Bearer <normalizeBearerToken tok>`, where the constructor's
normalisation removes the first case-insensitive occurrence of the substring
"bearer" anywhere in the supplied token and trims surrounding whitespace; in
particular a leading `Bearer ` prefix is stripped and re-added canonically,
and a token containing no "bearer" substring and no edge whitespace passes
through unchanged (tokens with "bearer" in the middle are mangled, contrary
to the original claim). -/
theorem auth_bearer_header (tok : String) (oauth : Option OAuthCreds)
    (hne : normalizeBearerToken tok ≠ "") :
    (Authorization.make none (some tok) oauth).type = some AuthKind.token ∧
    (∀ cache, (Authorization.make none (some tok) oauth).asHeader cache =
      [("Authorization", "Bearer " ++ normalizeBearerToken tok)]) ∧
    (∀ t : String, normalizeBearerToken ("Bearer " ++ t) = trimStr t) ∧
    (∀ t : String, containsCI "bearer".data t.data = false → trimChars t.data = t.data →
      normalizeBearerToken t = t) := by
  have htok : jsTruthyStr (some (normalizeBearerToken tok)) = true := by
    simp [jsTruthyStr]
    exact hne
  refine ⟨?_, ?_, ?_, ?_⟩
  · simp [Authorization.make, Authorization.type, jsTruthyStr, htok]
    simpa [jsTruthyStr] using htok
  · intro cache
    have hm : Option.map normalizeBearerToken (some tok) = some (normalizeBearerToken tok) := rfl
    simp only [Authorization.make, Authorization.asHeader, hm]
    rw [if_neg (by simp [jsTruthyStr]), if_pos htok]
    rfl
  · exact normalizeBearer_leading
  · intro t hc ht
    unfold normalizeBearerToken
    rw [removeFirstCI_of_not_contains _ _ hc, ht, strMk_data]

/-- C9 witness: the canonical case `Bearer 123`. -/
theorem auth_bearer_header_witness :
    (Authorization.make none (some "Bearer 123") none).asHeader none =
      [("Authorization", "Bearer 123")] :=
  ((auth_bearer_header "Bearer 123" none (by decide)).2.1 none).trans (by decide)

/-- C9 counterexample: `abearerb` carries no leading case-insensitive
"bearer" prefix, yet the produced header is `Bearer ab`, not
`Bearer abearerb`: the constructor deletes the first occurrence of "bearer"
anywhere in the token, not only a leading prefix. -/
theorem auth_bearer_header_cex :
    leadsWithCI "bearer".data "abearerb".data = false ∧
    (Authorization.make none (some "abearerb") none).asHeader none =
      [("Authorization", "Bearer ab")] ∧
    ("Bearer ab" : String) ≠ "Bearer abearerb" := by decide

/-!
## C5, C8, C10 — request construction
-/

theorem multipartLoop_header (digest : HashAlg → List Nat → String) :
    ∀ (parts : List Multipart) (hs : List (String × String)) (acc : List FormEntry)
      (hs' : List (String × String)) (es : List FormEntry),
      multipartLoop digest parts hs acc = .ok (hs', es) →
      (match lastFileContent parts with
       | some b => getHeader hs' "content-md5" = some (calculateMd5Hash digest b)
       | none => hs' = hs) := by
  intro parts
  induction parts with
  | nil =>
    intro hs acc hs' es h
    simp only [multipartLoop, Except.ok.injEq, Prod.mk.injEq] at h
    simp [lastFileContent, h.1]
  | cons item rest ih =>
    intro hs acc hs' es h
    rw [multipartLoop] at h
    cases hfs : item.fileStream with
    | some buffer =>
      rw [hfs] at h
      have := ih _ _ _ _ h
      rw [lastFileContent, hfs]
      cases hl : lastFileContent rest with
      | some b => rw [hl] at this; simpa using this
      | none =>
        rw [hl] at this
        simp only []
        rw [this, getHeader_setHeader_self]
    | none =>
      rw [hfs] at h
      by_cases hd : jsTruthyStr item.data = true
      · rw [if_pos hd] at h
        have := ih _ _ _ _ h
        rw [lastFileContent, hfs]
        cases hl : lastFileContent rest with
        | some b => rw [hl] at this; simpa using this
        | none => rw [hl] at this; simpa using this
      · rw [if_neg hd] at h
        exact absurd h (by simp)

theorem multipartLoop_error (digest : HashAlg → List Nat → String) :
    ∀ (parts : List Multipart) (hs : List (String × String)) (acc : List FormEntry),
      (∃ item ∈ parts, item.fileStream = none ∧ jsTruthyStr item.data = false) →
      ∃ nm, multipartLoop digest parts hs acc =
        .error (.sdk "Multipart item must have either serializable body or fileStream"
          (some (.multipartItem nm))) := by
  intro parts
  induction parts with
  | nil =>
    intro hs acc h
    simp at h
  | cons item rest ih =>
    intro hs acc h
    rw [multipartLoop]
    cases hfs : item.fileStream with
    | some buffer =>
      rcases h with ⟨w, hw, hw1, hw2⟩
      rcases List.mem_cons.mp hw with rfl | hwr
      · rw [hfs] at hw1; exact absurd hw1 (by simp)
      · exact ih _ _ ⟨w, hwr, hw1, hw2⟩
    | none =>
      by_cases hd : jsTruthyStr item.data = true
      · rw [if_pos hd]
        rcases h with ⟨w, hw, hw1, hw2⟩
        rcases List.mem_cons.mp hw with rfl | hwr
        · rw [hd] at hw2; exact absurd hw2 (by simp)
        · exact ih _ _ ⟨w, hwr, hw1, hw2⟩
      · rw [if_neg hd]
        exact ⟨item.name, rfl⟩

theorem createRequestInit_of_encode (digest : HashAlg → List Nat → String)
    (opts : HttpOpts) (auth : Option Authorization) (cache : Option String)
    (ct : String) (body : ReqBody) (hs : List (String × String))
    (h : encodeBody digest opts = .ok (ct, body, hs)) :
    createRequestInit digest opts auth cache = .ok
      { method := opts.method,
        body := if opts.method = "GET" then none else some body,
        headers :=
          match auth with
          | some a => (a.asHeader cache).foldl (fun acc p => setHeader acc p.1 p.2)
              (setHeader hs "Content-Type" ct)
          | none => setHeader hs "Content-Type" ct } := by
  unfold createRequestInit
  rw [h]

theorem getHeader_authFold (base : List (String × String)) (auth : Option Authorization)
    (cache : Option String) (k : String)
    (hk1 : k ≠ "x-synthetic-key") (hk2 : k ≠ "Authorization") :
    getHeader
      (match auth with
       | some a => (a.asHeader cache).foldl (fun acc p => setHeader acc p.1 p.2) base
       | none => base) k = getHeader base k := by
  cases auth with
  | none => rfl
  | some a =>
    show getHeader ((a.asHeader cache).foldl (fun acc p => setHeader acc p.1 p.2) base) k =
      getHeader base k
    unfold Authorization.asHeader
    by_cases h1 : jsTruthyStr a.apiKey = true
    · rw [if_pos h1, List.foldl_cons, List.foldl_nil]
      exact getHeader_setHeader_ne _ _ _ _ hk1
    · rw [if_neg h1]
      by_cases h2 : jsTruthyStr a.token = true
      · rw [if_pos h2, List.foldl_cons, List.foldl_nil]
        exact getHeader_setHeader_ne _ _ _ _ hk2
      · rw [if_neg h2]
        by_cases h3 : a.oauth.isSome = true
        · rw [if_pos h3, List.foldl_cons, List.foldl_nil]
          exact getHeader_setHeader_ne _ _ _ _ hk2
        · rw [if_neg h3, List.foldl_nil]

theorem encodeBody_multipart (digest : HashAlg → List Nat → String) (opts : HttpOpts)
    (parts : List Multipart) (hmp : opts.multiparts = some parts) :
    encodeBody digest opts =
      (match multipartLoop digest parts opts.headers [] with
       | .error e => .error e
       | .ok (hs2, entries) =>
         .ok ("multipart/form-data; boundary=<boundary>", ReqBody.formData entries, hs2)) := by
  unfold encodeBody
  rw [hmp]

theorem encodeBody_multipart_md5 (digest : HashAlg → List Nat → String) (opts : HttpOpts)
    (parts : List Multipart) (ct : String) (body : ReqBody) (hs : List (String × String))
    (b : List Nat) (hmp : opts.multiparts = some parts) (hb : lastFileContent parts = some b)
    (henc : encodeBody digest opts = .ok (ct, body, hs)) :
    getHeader hs "content-md5" = some (calculateMd5Hash digest b) := by
  rw [encodeBody_multipart digest opts parts hmp] at henc
  cases hloop : multipartLoop digest parts opts.headers [] with
  | error e =>
    rw [hloop] at henc
    exact Except.noConfusion henc
  | ok pair =>
    obtain ⟨hs2, es⟩ := pair
    rw [hloop] at henc
    have henc' : (("multipart/form-data; boundary=<boundary>" : String),
        ReqBody.formData es, hs2) = (ct, body, hs) := Except.ok.inj henc
    have hhs : hs2 = hs := congrArg (fun t => t.2.2) henc'
    have hmd := multipartLoop_header digest parts opts.headers [] hs2 es hloop
    rw [hb] at hmd
    rw [← hhs]
    exact hmd

/-- C10: a GET request (the default method) is dispatched without a body
even when a JSON body, a file stream or multipart parts were supplied; the
headers — the Content-Type and any `content-md5` digest computed from a
multipart file part — are still attached. -/
theorem get_request_no_body (digest : HashAlg → List Nat → String) (opts : HttpOpts)
    (auth : Option Authorization) (cache : Option String) (ri : ReqInit)
    (hg : opts.method = "GET")
    (hok : createRequestInit digest opts auth cache = .ok ri) :
    ri.body = none ∧
    (∃ v, getHeader ri.headers "Content-Type" = some v) ∧
    (∀ parts b, opts.multiparts = some parts → lastFileContent parts = some b →
      getHeader ri.headers "content-md5" = some (calculateMd5Hash digest b)) := by
  cases henc : encodeBody digest opts with
  | error e =>
    rw [createRequestInit, henc] at hok
    exact Except.noConfusion hok
  | ok triple =>
    obtain ⟨ct, body, hs⟩ := triple
    rw [createRequestInit_of_encode digest opts auth cache ct body hs henc] at hok
    obtain rfl : ri = _ := (Except.ok.inj hok).symm
    refine ⟨by simp [hg], ?_, ?_⟩
    · refine ⟨ct, ?_⟩
      rw [getHeader_authFold _ _ _ _ (by decide) (by decide), getHeader_setHeader_self]
    · intro parts b hmp hb
      rw [getHeader_authFold _ _ _ _ (by decide) (by decide),
        getHeader_setHeader_ne _ _ _ _ (by decide)]
      exact encodeBody_multipart_md5 digest opts parts ct body hs b hmp hb henc

/-- C10 witness: a GET request carrying a JSON body and a multipart file
part goes out with no body but with the `content-md5` header attached. -/
theorem get_request_no_body_witness :
    reqInitBodyOf (createRequestInit tagDigest
      { method := "GET", body := some "ignored",
        multiparts := some [{ name := "f", fileStream := some [1, 2, 3] }] } none none) =
      some none ∧
    reqInitHeaderOf (createRequestInit tagDigest
      { method := "GET", body := some "ignored",
        multiparts := some [{ name := "f", fileStream := some [1, 2, 3] }] } none none)
      "content-md5" = some (calculateMd5Hash tagDigest [1, 2, 3]) := by
  have hok : createRequestInit tagDigest
      { method := "GET", body := some "ignored",
        multiparts := some [{ name := "f", fileStream := some [1, 2, 3] }] } none none =
      .ok { method := "GET", body := none,
            headers := [("content-md5", "sha1:[1, 2, 3]"),
                        ("Content-Type", "multipart/form-data; boundary=<boundary>")] } := by
    decide
  have h := get_request_no_body tagDigest
    { method := "GET", body := some "ignored",
      multiparts := some [{ name := "f", fileStream := some [1, 2, 3] }] }
    none none _ rfl hok
  constructor
  · rw [reqInitBodyOf.eq_def, hok]
  · rw [reqInitHeaderOf.eq_def, hok]
    exact h.2.2 [{ name := "f", fileStream := some [1, 2, 3] }] [1, 2, 3] rfl rfl

/-- C5 (amended): every multipart request whose parts include a file stream
carries a `content-md5` header computed from the buffered content of the
(last) file part — but its value is the SHA-1 digest requested from the
external crypto library (`createHash('sha1')` / `subtle.digest('SHA-1')`),
not the MD5 digest the header name and the `calculateMd5Hash` name
announce. -/
theorem multipart_md5_header (digest : HashAlg → List Nat → String) (opts : HttpOpts)
    (auth : Option Authorization) (cache : Option String) (ri : ReqInit)
    (parts : List Multipart) (b : List Nat)
    (hmp : opts.multiparts = some parts) (hb : lastFileContent parts = some b)
    (hok : createRequestInit digest opts auth cache = .ok ri) :
    getHeader ri.headers "content-md5" = some (calculateMd5Hash digest b) ∧
    calculateMd5Hash digest b = digest HashAlg.sha1 b := by
  cases henc : encodeBody digest opts with
  | error e =>
    rw [createRequestInit, henc] at hok
    exact Except.noConfusion hok
  | ok triple =>
    obtain ⟨ct, body, hs⟩ := triple
    rw [createRequestInit_of_encode digest opts auth cache ct body hs henc] at hok
    obtain rfl : ri = _ := (Except.ok.inj hok).symm
    refine ⟨?_, rfl⟩
    rw [getHeader_authFold _ _ _ _ (by decide) (by decide),
      getHeader_setHeader_ne _ _ _ _ (by decide)]
    exact encodeBody_multipart_md5 digest opts parts ct body hs b hmp hb henc

/-- C5 witness: a POST multipart request with one file part. -/
theorem multipart_md5_header_witness :
    reqInitHeaderOf (createRequestInit tagDigest
      { method := "POST", multiparts := some [{ name := "file", fileStream := some [1, 2, 3] }] }
      none none) "content-md5" = some (calculateMd5Hash tagDigest [1, 2, 3]) := by
  have hok : createRequestInit tagDigest
      { method := "POST", multiparts := some [{ name := "file", fileStream := some [1, 2, 3] }] }
      none none =
      .ok { method := "POST",
            body := some (ReqBody.formData
              [.fileField "file" [1, 2, 3] "file" "application/octet-stream"]),
            headers := [("content-md5", "sha1:[1, 2, 3]"),
                        ("Content-Type", "multipart/form-data; boundary=<boundary>")] } := by
    decide
  have h := multipart_md5_header tagDigest
    { method := "POST", multiparts := some [{ name := "file", fileStream := some [1, 2, 3] }] }
    none none _ [{ name := "file", fileStream := some [1, 2, 3] }] [1, 2, 3] rfl rfl hok
  rw [reqInitHeaderOf.eq_def, hok]
  exact h.1

/-- C5 counterexample: instantiating the external digest collaborator with
one that records the requested algorithm shows the `content-md5` header
carries the SHA-1 digest of the buffered content, which is not the MD5
digest of that content — the claim as stated is false. -/
theorem multipart_md5_header_cex :
    reqInitHeaderOf (createRequestInit tagDigest
      { method := "POST", multiparts := some [{ name := "file", fileStream := some [1, 2, 3] }] }
      none none) "content-md5" = some (tagDigest HashAlg.sha1 [1, 2, 3]) ∧
    tagDigest HashAlg.sha1 [1, 2, 3] ≠ tagDigest HashAlg.md5 [1, 2, 3] := by decide

/-- C8: an `application/octet-stream` request without a byte stream, and a
multipart request with a part lacking both data and file stream, each fail
with a client-side `SdkError` (which carries no HTTP status) before any
network attempt, sleep or refresh happens. -/
theorem octet_stream_failfast (digest : HashAlg → List Nat → String) (env : FetchEnv)
    (cfg : Config) (resource : String) (opts : HttpOpts) (attempt refreshIdx : Nat)
    (cache : Option String) (hInt : cfg.interceptors = [])
    (hr : opts.retries ≤ cfg.maxRetries) :
    (opts.multiparts = none → opts.contentType = some "application/octet-stream" →
      opts.file = none →
      _fetch digest env cfg resource opts attempt refreshIdx cache =
        { result := .error (.sdk "fileStream required for application/octet-stream content type" none),
          sent := [], refreshes := 0, sleeps := [] } ∧
      (∀ m c, SparkErr.statusOf (.sdk m c) = none ∧ SparkErr.isSdk (.sdk m c) = true)) ∧
    (∀ parts, opts.multiparts = some parts →
      (∃ item ∈ parts, item.fileStream = none ∧ jsTruthyStr item.data = false) →
      ∃ nm,
        _fetch digest env cfg resource opts attempt refreshIdx cache =
          { result := .error (.sdk "Multipart item must have either serializable body or fileStream"
              (some (.multipartItem nm))),
            sent := [], refreshes := 0, sleeps := [] }) := by
  have hBefore : applyBefore cfg opts = opts := by
    rw [applyBefore, hInt, List.foldl_nil]
  obtain ⟨f, hfuel⟩ : ∃ f, cfg.maxRetries + 1 - opts.retries = f + 1 :=
    ⟨cfg.maxRetries - opts.retries, by omega⟩
  constructor
  · intro hmp hct hf
    have henc : encodeBody digest opts =
        .error (.sdk "fileStream required for application/octet-stream content type" none) := by
      unfold encodeBody
      rw [hmp, hct, hf]
      simp
    have hcri : createRequestInit digest (applyBefore cfg opts) cfg.auth cache =
        .error (.sdk "fileStream required for application/octet-stream content type" none) := by
      rw [hBefore, createRequestInit, henc]
    refine ⟨?_, fun m c => ⟨rfl, rfl⟩⟩
    rw [_fetch, hfuel, fetchGo, hcri]
  · intro parts hmp hbad
    obtain ⟨nm, hloop⟩ := multipartLoop_error digest parts opts.headers [] hbad
    refine ⟨nm, ?_⟩
    have henc : encodeBody digest opts =
        .error (.sdk "Multipart item must have either serializable body or fileStream"
          (some (.multipartItem nm))) := by
      rw [encodeBody_multipart digest opts parts hmp, hloop]
    have hcri : createRequestInit digest (applyBefore cfg opts) cfg.auth cache =
        .error (.sdk "Multipart item must have either serializable body or fileStream"
          (some (.multipartItem nm))) := by
      rw [hBefore, createRequestInit, henc]
    rw [_fetch, hfuel, fetchGo, hcri]

/-- C8 witness: an octet-stream POST without a file stream is rejected
before any attempt goes out. -/
theorem octet_stream_failfast_witness :
    _fetch tagDigest
      { responses := fun _ => { status := 200 }, tokens := fun _ => "t", jitters := fun _ => 0 }
      { maxRetries := 2 } "r"
      { method := "POST", contentType := some "application/octet-stream" } 0 0 none =
      { result := .error (.sdk "fileStream required for application/octet-stream content type" none),
        sent := [], refreshes := 0, sleeps := [] } :=
  ((octet_stream_failfast tagDigest
    { responses := fun _ => { status := 200 }, tokens := fun _ => "t", jitters := fun _ => 0 }
    { maxRetries := 2 } "r"
    { method := "POST", contentType := some "application/octet-stream" } 0 0 none
    rfl (by decide)).1 rfl rfl rfl).1

/-!
## C1 — 401 / OAuth refresh-and-resend policy
-/

theorem asHeader_of_oauth_type (a : Authorization) (cache : Option String)
    (h : a.type = some AuthKind.oauth) :
    a.asHeader cache = [("Authorization", "Bearer " ++ cache.getD "undefined")] := by
  unfold Authorization.type at h
  unfold Authorization.asHeader
  by_cases h1 : jsTruthyStr a.apiKey = true
  · rw [if_pos h1] at h
    exact absurd (Option.some.inj h) (by decide)
  · rw [if_neg h1] at h
    rw [if_neg h1]
    by_cases h2 : jsTruthyStr a.token = true
    · rw [if_pos h2] at h
      exact absurd (Option.some.inj h) (by decide)
    · rw [if_neg h2] at h
      rw [if_neg h2]
      by_cases h3 : a.oauth.isSome = true
      · rw [if_pos h3]
      · rw [if_neg h3] at h
        exact Option.noConfusion h

theorem fetchGo_sent_head (digest : HashAlg → List Nat → String) (env : FetchEnv)
    (cfg : Config) (resource : String) (opts : HttpOpts) (attempt refreshIdx : Nat)
    (cache : Option String) (fuel : Nat) (ri : ReqInit)
    (h : createRequestInit digest (applyBefore cfg opts) cfg.auth cache = .ok ri) :
    ∃ t, (fetchGo digest env cfg resource opts attempt refreshIdx cache (fuel + 1)).sent =
      { retries := (applyBefore cfg opts).retries, method := ri.method,
        headers := ri.headers, body := ri.body } :: t := by
  simp only [fetchGo, h]
  split_ifs <;> exact ⟨_, rfl⟩

theorem createRequestInit_headers_oauth (digest : HashAlg → List Nat → String)
    (opts : HttpOpts) (a : Authorization) (cache : Option String) (ri : ReqInit)
    (ha : a.type = some AuthKind.oauth)
    (hok : createRequestInit digest opts (some a) cache = .ok ri) :
    getHeader ri.headers "Authorization" = some ("Bearer " ++ cache.getD "undefined") := by
  cases henc : encodeBody digest opts with
  | error e =>
    rw [createRequestInit, henc] at hok
    exact Except.noConfusion hok
  | ok triple =>
    obtain ⟨ct, body, hs⟩ := triple
    rw [createRequestInit_of_encode digest opts (some a) cache ct body hs henc] at hok
    obtain rfl : ri = _ := (Except.ok.inj hok).symm
    show getHeader ((a.asHeader cache).foldl (fun acc p => setHeader acc p.1 p.2)
      (setHeader hs "Content-Type" ct)) "Authorization" = _
    rw [asHeader_of_oauth_type a cache ha, List.foldl_cons, List.foldl_nil,
      getHeader_setHeader_self]

/-- C1: a 401 response is refreshed-and-resent iff the auth mode is OAuth
and the retry count is below maxRetries; such a resend performs exactly one
refreshToken call, carries retry count +1 and an Authorization header with
the newly cached token, and the run continues from the refreshed state; in
every other case (apiKey or static-token auth, or retries exhausted) the
401 is never resent and is thrown as the classified UnauthorizedError. -/
theorem fetch_401_policy (digest : HashAlg → List Nat → String) (env : FetchEnv)
    (cfg : Config) (resource : String) (opts : HttpOpts) (attempt refreshIdx : Nat)
    (cache : Option String)
    (hInt : cfg.interceptors = [])
    (hr : opts.retries ≤ cfg.maxRetries)
    (hok : ∃ ct body hs, encodeBody digest opts = .ok (ct, body, hs))
    (h401 : (env.responses attempt).status = 401) :
    (cfg.authType = some AuthKind.oauth → opts.retries < cfg.maxRetries →
      ((_fetch digest env cfg resource opts attempt refreshIdx cache).result =
        (_fetch digest env cfg resource { opts with retries := opts.retries + 1 }
          (attempt + 1) (refreshIdx + 1) (some (env.tokens refreshIdx))).result ∧
       (_fetch digest env cfg resource opts attempt refreshIdx cache).refreshes =
        (_fetch digest env cfg resource { opts with retries := opts.retries + 1 }
          (attempt + 1) (refreshIdx + 1) (some (env.tokens refreshIdx))).refreshes + 1 ∧
       (_fetch digest env cfg resource opts attempt refreshIdx cache).sleeps =
        (_fetch digest env cfg resource { opts with retries := opts.retries + 1 }
          (attempt + 1) (refreshIdx + 1) (some (env.tokens refreshIdx))).sleeps ∧
       (∃ first, (_fetch digest env cfg resource opts attempt refreshIdx cache).sent =
          first :: (_fetch digest env cfg resource { opts with retries := opts.retries + 1 }
            (attempt + 1) (refreshIdx + 1) (some (env.tokens refreshIdx))).sent ∧
          first.retries = opts.retries) ∧
       (∃ second t2,
          (_fetch digest env cfg resource { opts with retries := opts.retries + 1 }
            (attempt + 1) (refreshIdx + 1) (some (env.tokens refreshIdx))).sent =
            second :: t2 ∧
          second.retries = opts.retries + 1 ∧
          getHeader second.headers "Authorization" =
            some ("Bearer " ++ env.tokens refreshIdx)))) ∧
    (¬(cfg.authType = some AuthKind.oauth ∧ opts.retries < cfg.maxRetries) →
      ((_fetch digest env cfg resource opts attempt refreshIdx cache).sent.length = 1 ∧
       (_fetch digest env cfg resource opts attempt refreshIdx cache).refreshes = 0 ∧
       (_fetch digest env cfg resource opts attempt refreshIdx cache).sleeps = [] ∧
       ∃ hs0, (_fetch digest env cfg resource opts attempt refreshIdx cache).result =
         .error (.api ApiErrKind.unauthorized 401 ("failed to fetch <" ++ resource ++ ">")
           (some (.httpExchange hs0 401))))) := by
  obtain ⟨ct, body0, hs0, henc⟩ := hok
  have hBefore : ∀ o : HttpOpts, applyBefore cfg o = o := fun o => by
    rw [applyBefore, hInt, List.foldl_nil]
  have hAfter : ∀ r : HttpRsp, applyAfter cfg r = r := fun r => by
    rw [applyAfter, hInt, List.foldl_nil]
  obtain ⟨f, hfuel⟩ : ∃ f, cfg.maxRetries + 1 - opts.retries = f + 1 :=
    ⟨cfg.maxRetries - opts.retries, by omega⟩
  have hcri : createRequestInit digest opts cfg.auth cache = .ok
      { method := opts.method,
        body := if opts.method = "GET" then none else some body0,
        headers :=
          match cfg.auth with
          | some a => (a.asHeader cache).foldl (fun acc p => setHeader acc p.1 p.2)
              (setHeader hs0 "Content-Type" ct)
          | none => setHeader hs0 "Content-Type" ct } :=
    createRequestInit_of_encode digest opts cfg.auth cache ct body0 hs0 henc
  constructor
  · intro hoauth hlt
    have hfuel2 : cfg.maxRetries + 1 - (opts.retries + 1) = f := by omega
    have hstep : _fetch digest env cfg resource opts attempt refreshIdx cache =
        (let rest := fetchGo digest env cfg resource
            { opts with retries := opts.retries + 1 }
            (attempt + 1) (refreshIdx + 1) (some (env.tokens refreshIdx)) f
         { result := rest.result,
           sent := { retries := opts.retries, method := opts.method,
                     body := if opts.method = "GET" then none else some body0,
                     headers :=
                       match cfg.auth with
                       | some a => (a.asHeader cache).foldl (fun acc p => setHeader acc p.1 p.2)
                           (setHeader hs0 "Content-Type" ct)
                       | none => setHeader hs0 "Content-Type" ct } :: rest.sent,
           refreshes := rest.refreshes + 1, sleeps := rest.sleeps }) := by
      rw [_fetch, hfuel]
      simp only [fetchGo, hBefore, hAfter, hcri, h401, true_and]
      rw [if_pos (show (400:Nat) ≤ 401 from by omega), if_pos ⟨hoauth, hlt⟩]
    have hrest : _fetch digest env cfg resource { opts with retries := opts.retries + 1 }
        (attempt + 1) (refreshIdx + 1) (some (env.tokens refreshIdx)) =
        fetchGo digest env cfg resource { opts with retries := opts.retries + 1 }
          (attempt + 1) (refreshIdx + 1) (some (env.tokens refreshIdx)) f := by
      show fetchGo _ _ _ _ _ _ _ _ (cfg.maxRetries + 1 - opts.retries - 1 + 1 - 1) = _
      rw [show cfg.maxRetries + 1 - opts.retries - 1 + 1 - 1 =
        cfg.maxRetries + 1 - (opts.retries + 1) from by omega, hfuel2]
    obtain ⟨a, ha, hatype⟩ : ∃ a, cfg.auth = some a ∧ a.type = some AuthKind.oauth := by
      rcases hcfga : cfg.auth with _ | a
      · rw [Config.authType, hcfga] at hoauth
        exact Option.noConfusion hoauth
      · rw [Config.authType, hcfga] at hoauth
        exact ⟨a, rfl, hoauth⟩
    have henc' : encodeBody digest { opts with retries := opts.retries + 1 } =
        .ok (ct, body0, hs0) := henc
    obtain ⟨ff, hff⟩ : ∃ ff, f = ff + 1 := ⟨f - 1, by omega⟩
    have hcri' : createRequestInit digest
        (applyBefore cfg { opts with retries := opts.retries + 1 }) cfg.auth
        (some (env.tokens refreshIdx)) = .ok
        { method := opts.method,
          body := if opts.method = "GET" then none else some body0,
          headers :=
            match cfg.auth with
            | some a => (a.asHeader (some (env.tokens refreshIdx))).foldl
                (fun acc p => setHeader acc p.1 p.2) (setHeader hs0 "Content-Type" ct)
            | none => setHeader hs0 "Content-Type" ct } := by
      rw [hBefore]
      exact createRequestInit_of_encode digest _ cfg.auth _ ct body0 hs0 henc'
    obtain ⟨t2, ht2⟩ := fetchGo_sent_head digest env cfg resource
      { opts with retries := opts.retries + 1 } (attempt + 1) (refreshIdx + 1)
      (some (env.tokens refreshIdx)) ff _ hcri'
    rw [← hff, ← hrest] at ht2
    refine ⟨by rw [hstep, hrest], by rw [hstep, hrest], by rw [hstep, hrest],
      ⟨_, by rw [hstep, hrest], rfl⟩, ?_⟩
    refine ⟨_, t2, ht2, by rw [hBefore], ?_⟩
    have hgh := createRequestInit_headers_oauth digest
      { opts with retries := opts.retries + 1 } a (some (env.tokens refreshIdx)) _ hatype
      (by rw [← ha]; exact (hBefore _ ▸ hcri'))
    exact hgh
  · intro hnot
    have hstep : _fetch digest env cfg resource opts attempt refreshIdx cache =
        { result := .error (.api (SparkApiError.when 401) 401
            ("failed to fetch <" ++ resource ++ ">")
            (some (.httpExchange
              (match cfg.auth with
               | some a => (a.asHeader cache).foldl (fun acc p => setHeader acc p.1 p.2)
                   (setHeader hs0 "Content-Type" ct)
               | none => setHeader hs0 "Content-Type" ct) 401))),
          sent := [{ retries := opts.retries, method := opts.method,
                     body := if opts.method = "GET" then none else some body0,
                     headers :=
                       match cfg.auth with
                       | some a => (a.asHeader cache).foldl (fun acc p => setHeader acc p.1 p.2)
                           (setHeader hs0 "Content-Type" ct)
                       | none => setHeader hs0 "Content-Type" ct }],
          refreshes := 0, sleeps := [] } := by
      rw [_fetch, hfuel]
      simp only [fetchGo, hBefore, hAfter, hcri, h401, true_and]
      rw [if_pos (show (400:Nat) ≤ 401 from by omega), if_neg (fun hh => hnot hh),
        if_neg (by rintro ⟨hh, -⟩; exact absurd hh (by omega))]
    rw [hstep]
    refine ⟨rfl, rfl, rfl,
      ⟨(match cfg.auth with
        | some a => (a.asHeader cache).foldl (fun acc p => setHeader acc p.1 p.2)
            (setHeader hs0 "Content-Type" ct)
        | none => setHeader hs0 "Content-Type" ct), ?_⟩⟩
    rw [show SparkApiError.when 401 = ApiErrKind.unauthorized from by decide]

/-- C1 witness: under apiKey auth a 401 is thrown, not retried. -/
theorem fetch_401_policy_witness :
    (_fetch tagDigest
      { responses := fun _ => { status := 401 }, tokens := fun _ => "t", jitters := fun _ => 0 }
      { maxRetries := 2, auth := some { apiKey := some "k", token := none, oauth := none } }
      "r" { method := "POST" } 0 0 none).sent.length = 1 ∧
    (_fetch tagDigest
      { responses := fun _ => { status := 401 }, tokens := fun _ => "t", jitters := fun _ => 0 }
      { maxRetries := 2, auth := some { apiKey := some "k", token := none, oauth := none } }
      "r" { method := "POST" } 0 0 none).refreshes = 0 := by
  have h := (fetch_401_policy tagDigest
    { responses := fun _ => { status := 401 }, tokens := fun _ => "t", jitters := fun _ => 0 }
    { maxRetries := 2, auth := some { apiKey := some "k", token := none, oauth := none } }
    "r" { method := "POST" } 0 0 none rfl (by decide)
    ⟨"application/json", .jsonText "null", [], rfl⟩ rfl).2 (by decide)
  exact ⟨h.1, h.2.1⟩

/-!
## C3 — exponential backoff and the 429 sleep
-/

theorem ceil_jitter_bounds (L : ℚ) (hL : 0 < L) (j : ℚ) (hj0 : 1/2 ≤ j) (hj1 : j < 3/2)
    (N : ℤ) (hN : (N : ℚ) = L * (3/2)) :
    L * (1/2) ≤ ((Int.ceil (L * j) : ℤ) : ℚ) ∧ ((Int.ceil (L * j) : ℤ) : ℚ) ≤ L * (3/2) := by
  constructor
  · calc L * (1/2) ≤ L * j := by nlinarith
    _ ≤ ((Int.ceil (L * j) : ℤ) : ℚ) := Int.le_ceil _
  · have h1 : L * j ≤ (N : ℚ) := by rw [hN]; nlinarith
    have h2 : Int.ceil (L * j) ≤ N := Int.ceil_le.mpr h1
    calc ((Int.ceil (L * j) : ℤ) : ℚ) ≤ (N : ℚ) := by exact_mod_cast h2
    _ = L * (3/2) := hN

/-- C3 (amended): (i) for every retry count ≥ 1, every whole-second base
interval ≥ 1 and every Math.random draw in [0, 1) — jitter = draw + 0.5 ∈
[0.5, 1.5) — the computed backoff delay lies within
[2^(retries−1)·base·1000·0.5, 2^(retries−1)·base·1000·1.5] milliseconds;
(ii) on a 429 response without an x-retry-after header the executor sleeps
for `getRetryTimeout(retries)` seeded with the DEFAULT base interval of one
second: the call site passes no interval and `Config` has no retry-interval
field, so the backoff is not computed from any configured base interval. -/
theorem backoff_429 (retries base : Nat) (random : ℚ)
    (digest : HashAlg → List Nat → String) (env : FetchEnv) (cfg : Config)
    (resource : String) (opts : HttpOpts) (attempt refreshIdx : Nat) (cache : Option String) :
    (1 ≤ retries → 1 ≤ base → 0 ≤ random → random < 1 →
      (((2:ℚ) ^ (retries - 1) * base * 1000) * (1/2) ≤ (getRetryTimeout retries base random : ℚ) ∧
       (getRetryTimeout retries base random : ℚ) ≤ ((2:ℚ) ^ (retries - 1) * base * 1000) * (3/2))) ∧
    (cfg.interceptors = [] → opts.retries ≤ cfg.maxRetries →
      (∃ ct body hs, encodeBody digest opts = .ok (ct, body, hs)) →
      (env.responses attempt).status = 429 →
      (env.responses attempt).retryAfter = none →
      opts.retries < cfg.maxRetries →
      (_fetch digest env cfg resource opts attempt refreshIdx cache).sleeps.head? =
        some ((getRetryTimeout opts.retries 1 (env.jitters attempt) : ℤ) : ℚ)) := by
  constructor
  · intro hret hbase hr0 hr1
    obtain ⟨k, rfl⟩ : ∃ k, retries = k + 1 := ⟨retries - 1, by omega⟩
    have hbpos : (0 : ℚ) < (base : ℚ) := by exact_mod_cast Nat.lt_of_lt_of_le Nat.zero_lt_one hbase
    have hL : (0 : ℚ) < (2:ℚ) ^ k * base * 1000 := by positivity
    have hexp : ((2:ℚ) ^ (((k + 1 : Nat) : ℤ) - 1)) = (2:ℚ) ^ k := by
      rw [show (((k + 1 : Nat) : ℤ) - 1) = (k : ℤ) from by push_cast; ring, zpow_natCast]
    simp only [getRetryTimeout]
    have harg : (2:ℚ) ^ (((k + 1 : Nat) : ℤ) - 1) * (base : ℚ) * 1000 *
        (random * (1 + 1/2 - (1 - 1/2)) + (1 - 1/2)) =
        ((2:ℚ) ^ k * base * 1000) * (random + 1/2) := by
      rw [hexp]; ring
    rw [harg, Nat.add_sub_cancel]
    exact ceil_jitter_bounds ((2:ℚ) ^ k * base * 1000) hL (random + 1/2)
      (by nlinarith) (by nlinarith) ((2 : ℤ) ^ k * (base : ℤ) * 1500)
      (by push_cast; ring)
  · intro hInt hr hok h429 hra hlt
    obtain ⟨ct, body0, hs0, henc⟩ := hok
    have hBefore : ∀ o : HttpOpts, applyBefore cfg o = o := fun o => by
      rw [applyBefore, hInt, List.foldl_nil]
    have hAfter : ∀ r : HttpRsp, applyAfter cfg r = r := fun r => by
      rw [applyAfter, hInt, List.foldl_nil]
    obtain ⟨f, hfuel⟩ : ∃ f, cfg.maxRetries + 1 - opts.retries = f + 1 :=
      ⟨cfg.maxRetries - opts.retries, by omega⟩
    have hcri : createRequestInit digest opts cfg.auth cache = .ok
        { method := opts.method,
          body := if opts.method = "GET" then none else some body0,
          headers :=
            match cfg.auth with
            | some a => (a.asHeader cache).foldl (fun acc p => setHeader acc p.1 p.2)
                (setHeader hs0 "Content-Type" ct)
            | none => setHeader hs0 "Content-Type" ct } :=
      createRequestInit_of_encode digest opts cfg.auth cache ct body0 hs0 henc
    rw [_fetch, hfuel]
    simp only [fetchGo, hBefore, hAfter, hcri, h429, hra, true_and]
    rw [if_pos (show (400:Nat) ≤ 429 from by omega),
      if_neg (by rintro ⟨hh, -⟩; exact absurd hh (by omega)),
      if_pos hlt]
    rfl

/-- C3 witness: retries 1, base 1 s, random draw 0 (jitter 0.5), and a 429
run sleeping the default-base backoff. -/
theorem backoff_429_witness :
    (((2:ℚ) ^ (1 - 1) * 1 * 1000) * (1/2) ≤ (getRetryTimeout 1 1 0 : ℚ) ∧
     (getRetryTimeout 1 1 0 : ℚ) ≤ ((2:ℚ) ^ (1 - 1) * 1 * 1000) * (3/2)) ∧
    (_fetch tagDigest
      { responses := fun _ => { status := 429 }, tokens := fun _ => "t", jitters := fun _ => 0 }
      { maxRetries := 5 } "r" { method := "POST" } 0 0 none).sleeps.head? =
      some ((getRetryTimeout 0 1 0 : ℤ) : ℚ) := by
  have h := backoff_429 1 1 0 tagDigest
    { responses := fun _ => { status := 429 }, tokens := fun _ => "t", jitters := fun _ => 0 }
    { maxRetries := 5 } "r" { method := "POST" } 0 0 none
  refine ⟨?_, h.2 rfl (by decide) ⟨"application/json", .jsonText "null", [], rfl⟩ rfl rfl (by decide)⟩
  have h1 := h.1 (by omega) (by omega) (by norm_num) (by norm_num)
  exact_mod_cast h1

/-- C3 counterexample: with random draw 1/2 (jitter 1) a 429-429-200 run
sleeps 500 ms then 1000 ms — the backoff values seeded with the default
1-second base — while the spec's formula seeded with a configured base
interval of 2 s prescribes 2000 ms at retries = 1; the executor's sleep is
therefore not computed from a configured base interval. -/
theorem backoff_429_cex :
    (_fetch tagDigest
      { responses := fun n => if n ≤ 1 then { status := 429 } else { status := 200 },
        tokens := fun _ => "t", jitters := fun _ => 1/2 }
      { maxRetries := 5 } "r" { method := "POST" } 0 0 none).sleeps = [500, 1000] ∧
    Spec.backoffMs 1 2000 1 = 2000 ∧ ((1000 : ℚ) ≠ 2000) := by
  have h0 : getRetryTimeout 0 1 (1/2) = 500 := by
    norm_num [getRetryTimeout]
  have h1 : getRetryTimeout 1 1 (1/2) = 1000 := by
    norm_num [getRetryTimeout]
  have hrun : (_fetch tagDigest
      { responses := fun n => if n ≤ 1 then { status := 429 } else { status := 200 },
        tokens := fun _ => "t", jitters := fun _ => 1/2 }
      { maxRetries := 5 } "r" { method := "POST" } 0 0 none).sleeps =
      [((getRetryTimeout 0 1 (1/2) : ℤ) : ℚ), ((getRetryTimeout 1 1 (1/2) : ℤ) : ℚ)] := rfl
  refine ⟨?_, ?_, by norm_num⟩
  · rw [hrun, h0, h1]
    norm_num
  · norm_num [Spec.backoffMs]

/-!
## C2, C6 — poller exhaustion and completion
-/

theorem exportGo_timeout (statusOf : Nat → ExportResult) (jit : Nat → ℚ)
    (maxRetries : Nat) (retryInterval : ℚ)
    (hnc : ∀ n, (statusOf n).status ≠ "closed" ∧ (statusOf n).status ≠ "completed") :
    ∀ fuel retries, maxRetries - retries < fuel → retries ≤ maxRetries →
      (exportGo statusOf jit maxRetries retryInterval fuel retries).result =
        .error (.sdk ("export job status timed out after " ++ toString maxRetries ++ " retries")
          none) ∧
      (exportGo statusOf jit maxRetries retryInterval fuel retries).polls =
        maxRetries - retries := by
  intro fuel
  induction fuel with
  | zero =>
    intro retries h1 h2
    exact absurd h1 (by omega)
  | succ f ih =>
    intro retries h1 h2
    simp only [exportGo]
    by_cases hlt : retries < maxRetries
    · rw [if_pos hlt, if_neg (by
        rintro (h | h)
        · exact (hnc retries).1 h
        · exact (hnc retries).2 h)]
      obtain ⟨ihr, ihp⟩ := ih (retries + 1) (by omega) (by omega)
      refine ⟨ihr, ?_⟩
      show (exportGo statusOf jit maxRetries retryInterval f (retries + 1)).polls + 1 =
        maxRetries - retries
      rw [ihp]
      omega
    · rw [if_neg hlt]
      have heq : retries = maxRetries := by omega
      rw [heq]
      refine ⟨rfl, ?_⟩
      show 0 = maxRetries - maxRetries
      omega

theorem importGo_timeout (statusOf : Nat → ImportResult) (jit : Nat → ℚ)
    (maxRetries : Nat) (retryInterval : ℚ)
    (hnc : ∀ n, (statusOf n).status ≠ "closed" ∧ (statusOf n).status ≠ "completed") :
    ∀ fuel retries, maxRetries - retries < fuel → retries ≤ maxRetries →
      (importGo statusOf jit maxRetries retryInterval fuel retries).result =
        .error (.sdk ("import job status timed out after " ++ toString maxRetries ++ " retries")
          none) ∧
      (importGo statusOf jit maxRetries retryInterval fuel retries).polls =
        maxRetries - retries := by
  intro fuel
  induction fuel with
  | zero =>
    intro retries h1 h2
    exact absurd h1 (by omega)
  | succ f ih =>
    intro retries h1 h2
    simp only [importGo]
    by_cases hlt : retries < maxRetries
    · rw [if_pos hlt, if_neg (by
        rintro (h | h)
        · exact (hnc retries).1 h
        · exact (hnc retries).2 h)]
      obtain ⟨ihr, ihp⟩ := ih (retries + 1) (by omega) (by omega)
      refine ⟨ihr, ?_⟩
      show (importGo statusOf jit maxRetries retryInterval f (retries + 1)).polls + 1 =
        maxRetries - retries
      rw [ihp]
      omega
    · rw [if_neg hlt]
      have heq : retries = maxRetries := by omega
      rw [heq]
      refine ⟨rfl, ?_⟩
      show 0 = maxRetries - maxRetries
      omega

theorem compilationGo_timeout (statusOf : Nat → CompilationStatus) (jit : Nat → ℚ)
    (maxRetries : Nat) (retryInterval : ℚ)
    (hnc : ∀ n, jsEqNum (statusOf n).progress 100 = false ∧
      jsLtNum (statusOf n).progress 100 = true ∧ (statusOf n).status ≠ "Success") :
    ∀ fuel retries, maxRetries - retries < fuel → retries < maxRetries →
      (compilationGo statusOf jit maxRetries retryInterval fuel retries
        (statusOf retries)).result =
        .error (.sdk "compilation job status check timed out"
          (some (.compilationResponse (statusOf maxRetries)))) ∧
      (compilationGo statusOf jit maxRetries retryInterval fuel retries
        (statusOf retries)).polls = maxRetries - retries := by
  intro fuel
  induction fuel with
  | zero =>
    intro retries h1 h2
    exact absurd h1 (by omega)
  | succ f ih =>
    intro retries h1 h2
    simp only [compilationGo]
    rw [if_neg (by simp [(hnc retries).1])]
    by_cases hlt : retries + 1 < maxRetries
    · rw [if_pos ⟨(hnc (retries + 1)).2.1, hlt⟩]
      obtain ⟨ihr, ihp⟩ := ih (retries + 1) (by omega) (by omega)
      refine ⟨ihr, ?_⟩
      show (compilationGo statusOf jit maxRetries retryInterval f (retries + 1)
        (statusOf (retries + 1))).polls + 1 = maxRetries - retries
      rw [ihp]
      omega
    · rw [if_neg (by rintro ⟨-, hh⟩; exact hlt hh),
        if_neg (hnc (retries + 1)).2.2]
      have heq : retries + 1 = maxRetries := by omega
      rw [heq]
      refine ⟨rfl, ?_⟩
      show 1 = maxRetries - retries
      omega

/-- C2 (amended): a job that never reports completion within maxRetries
attempts makes every poller throw an SdkError, but the error shapes differ
from the claim: the compilation poller attaches the last status response
observed as cause while its message does not identify the attempt count;
the export and import pollers identify the attempts exhausted in the
message but attach no cause at all. -/
theorem poll_timeout_errors
    (cenv : Nat → CompilationStatus) (eenv : Nat → ExportResult) (ienv : Nat → ImportResult)
    (jit : Nat → ℚ) (maxRetries : Nat) (retryInterval : ℚ)
    (hM : 1 ≤ maxRetries)
    (hc : ∀ n, jsEqNum (cenv n).progress 100 = false ∧
      jsLtNum (cenv n).progress 100 = true ∧ (cenv n).status ≠ "Success")
    (he : ∀ n, (eenv n).status ≠ "closed" ∧ (eenv n).status ≠ "completed")
    (hi : ∀ n, (ienv n).status ≠ "closed" ∧ (ienv n).status ≠ "completed") :
    ((Compilation.getStatus cenv jit maxRetries retryInterval).result =
      .error (.sdk "compilation job status check timed out"
        (some (.compilationResponse (cenv maxRetries)))) ∧
     (Compilation.getStatus cenv jit maxRetries retryInterval).polls = maxRetries + 1) ∧
    ((Export.getStatus eenv jit maxRetries retryInterval).result =
      .error (.sdk ("export job status timed out after " ++ toString maxRetries ++ " retries")
        none) ∧
     (Export.getStatus eenv jit maxRetries retryInterval).polls = maxRetries ∧
     (∀ e, (Export.getStatus eenv jit maxRetries retryInterval).result = .error e →
       e.causeOf = none)) ∧
    ((Import.getStatus ienv jit maxRetries retryInterval).result =
      .error (.sdk ("import job status timed out after " ++ toString maxRetries ++ " retries")
        none) ∧
     (Import.getStatus ienv jit maxRetries retryInterval).polls = maxRetries) := by
  obtain ⟨hcr, hcp⟩ := compilationGo_timeout cenv jit maxRetries retryInterval hc
    (maxRetries + 1) 0 (by omega) (by omega)
  obtain ⟨her, hep⟩ := exportGo_timeout eenv jit maxRetries retryInterval he
    (maxRetries + 1) 0 (by omega) (by omega)
  obtain ⟨hir, hip⟩ := importGo_timeout ienv jit maxRetries retryInterval hi
    (maxRetries + 1) 0 (by omega) (by omega)
  refine ⟨⟨?_, ?_⟩, ⟨?_, ?_, ?_⟩, ⟨?_, ?_⟩⟩
  · exact hcr
  · show (compilationGo cenv jit maxRetries retryInterval (maxRetries + 1) 0 (cenv 0)).polls + 1 =
      maxRetries + 1
    rw [hcp]
    omega
  · exact her
  · show (exportGo eenv jit maxRetries retryInterval (maxRetries + 1) 0).polls = maxRetries
    rw [hep]
    omega
  · intro e hx
    have hx' : (exportGo eenv jit maxRetries retryInterval (maxRetries + 1) 0).result =
      .error e := hx
    rw [her] at hx'
    obtain rfl : _ = e := Except.error.inj hx'
    rfl
  · exact hir
  · show (importGo ienv jit maxRetries retryInterval (maxRetries + 1) 0).polls = maxRetries
    rw [hip]
    omega

/-- C2 witness: constant never-completing statuses, maxRetries = 1. -/
theorem poll_timeout_errors_witness :
    (Compilation.getStatus (fun _ => { status := "Progressing", progress := some 0 })
      (fun _ => 0) 1 2).result =
      .error (.sdk "compilation job status check timed out"
        (some (.compilationResponse { status := "Progressing", progress := some 0 }))) ∧
    (Export.getStatus (fun _ => { status := "pending" }) (fun _ => 0) 1 2).result =
      .error (.sdk ("export job status timed out after " ++ toString 1 ++ " retries") none) := by
  have h := poll_timeout_errors (fun _ => { status := "Progressing", progress := some 0 })
    (fun _ => { status := "pending" }) (fun _ => { status := "pending" })
    (fun _ => 0) 1 2 (by omega)
    (fun n => ⟨by show jsEqNum (some (0:ℚ)) 100 = false; decide,
      by show jsLtNum (some (0:ℚ)) 100 = true; decide,
      by show ("Progressing" : String) ≠ "Success"; decide⟩)
    (fun n => ⟨by show ("pending" : String) ≠ "closed"; decide,
      by show ("pending" : String) ≠ "completed"; decide⟩)
    (fun n => ⟨by show ("pending" : String) ≠ "closed"; decide,
      by show ("pending" : String) ≠ "completed"; decide⟩)
  exact ⟨h.1.1, h.2.1.1⟩

/-- C2 counterexample: the export poller's timeout error carries no cause
at all — the last status response observed is not attached, contrary to the
claim; only its message identifies the attempts exhausted. -/
theorem poll_timeout_errors_cex :
    (Export.getStatus (fun _ => { status := "pending" }) (fun _ => 0) 1 2).result =
      .error (.sdk "export job status timed out after 1 retries" none) ∧
    SparkErr.causeOf (.sdk "export job status timed out after 1 retries" none) = none := by
  exact ⟨by decide, rfl⟩

/-- C6 (amended): a compilation poll whose successive reads report progress
0, then 50, then 100 finishes on the third status read (3 polls, within any
maxRetries ≥ 2) — but the third response is returned only when its status
string is 'Success'; for any other status string the poller instead throws
the timeout SdkError carrying that third response as cause, contrary to the
original "regardless of the status string". -/
theorem compilation_three_polls (cenv : Nat → CompilationStatus) (jit : Nat → ℚ)
    (maxRetries : Nat) (retryInterval : ℚ) (hM : 2 ≤ maxRetries)
    (h0 : (cenv 0).progress = some 0) (h1 : (cenv 1).progress = some 50)
    (h2 : (cenv 2).progress = some 100) :
    (Compilation.getStatus cenv jit maxRetries retryInterval).polls = 3 ∧
    (Compilation.getStatus cenv jit maxRetries retryInterval).result =
      (if (cenv 2).status = "Success" then .ok (cenv 2)
       else .error (.sdk "compilation job status check timed out"
         (some (.compilationResponse (cenv 2))))) := by
  obtain ⟨m, rfl⟩ : ∃ m, maxRetries = m + 2 := ⟨maxRetries - 2, by omega⟩
  have e0 : jsEqNum (cenv 0).progress 100 = false := by rw [h0]; decide
  have e1 : jsEqNum (cenv 1).progress 100 = false := by rw [h1]; decide
  have l1 : jsLtNum (cenv 1).progress 100 = true := by rw [h1]; decide
  have l2 : jsLtNum (cenv 2).progress 100 = false := by rw [h2]; decide
  have hstep : compilationGo cenv jit (m + 2) retryInterval (m + 2 + 1) 0 (cenv 0) =
      { result :=
          (if (cenv 2).status = "Success" then .ok (cenv 2)
           else .error (.sdk "compilation job status check timed out"
             (some (.compilationResponse (cenv 2))))),
        polls := 2,
        sleeps := [getRetryTimeout 0 retryInterval (jit 0),
                   getRetryTimeout 1 retryInterval (jit 1)] } := by
    rw [show m + 2 + 1 = (m + 1) + 1 + 1 from rfl]
    simp only [compilationGo]
    rw [if_neg (by simp [e0]), if_pos ⟨l1, by omega⟩, if_neg (by simp [e1]),
      if_neg (by rintro ⟨hh, -⟩; rw [l2] at hh; exact Bool.noConfusion hh)]
    by_cases hS : (cenv 2).status = "Success"
    · rw [if_pos hS, if_pos hS]
    · rw [if_neg hS, if_neg hS]
  constructor
  · show (compilationGo cenv jit (m + 2) retryInterval (m + 2 + 1) 0 (cenv 0)).polls + 1 = 3
    rw [hstep]
  · show (compilationGo cenv jit (m + 2) retryInterval (m + 2 + 1) 0 (cenv 0)).result = _
    rw [hstep]

/-- C6 witness: the 0 → 50 → 100 sequence whose third read reports status
'Success' is returned on the third poll. -/
theorem compilation_three_polls_witness :
    (Compilation.getStatus
      (fun n => if n = 0 then { status := "Progressing", progress := some 0 }
        else if n = 1 then { status := "Progressing", progress := some 50 }
        else { status := "Success", progress := some 100 })
      (fun _ => 0) 2 2).polls = 3 ∧
    (Compilation.getStatus
      (fun n => if n = 0 then { status := "Progressing", progress := some 0 }
        else if n = 1 then { status := "Progressing", progress := some 50 }
        else { status := "Success", progress := some 100 })
      (fun _ => 0) 2 2).result =
      .ok { status := "Success", progress := some 100 } := by
  have h := compilation_three_polls
    (fun n => if n = 0 then { status := "Progressing", progress := some 0 }
      else if n = 1 then { status := "Progressing", progress := some 50 }
      else { status := "Success", progress := some 100 })
    (fun _ => 0) 2 2 (by omega) rfl rfl rfl
  exact ⟨h.1, h.2.trans (by decide)⟩

/-- C6 counterexample: the same 0 → 50 → 100 sequence with the third status
string 'Progressing' is NOT returned as completed — the poller throws the
compilation-timeout SdkError instead, so "regardless of the job's reported
status string" is false. -/
theorem compilation_three_polls_cex :
    (Compilation.getStatus
      (fun n => if n = 0 then { status := "Progressing", progress := some 0 }
        else if n = 1 then { status := "Progressing", progress := some 50 }
        else { status := "Progressing", progress := some 100 })
      (fun _ => 0) 2 2).result =
      .error (.sdk "compilation job status check timed out"
        (some (.compilationResponse { status := "Progressing", progress := some 100 }))) := by
  decide

/-!
## C4 — locator encode/decode round-trip
-/

theorem leadsWith_iff (p : List Char) : ∀ s, leadsWith p s = true ↔ ∃ t, s = p ++ t := by
  induction p with
  | nil =>
    intro s
    constructor
    · intro _
      exact ⟨s, rfl⟩
    · intro _
      rfl
  | cons a p ih =>
    intro s
    cases s with
    | nil =>
      simp [leadsWith]
    | cons c cs =>
      rw [leadsWith, Bool.and_eq_true, beq_iff_eq]
      constructor
      · rintro ⟨rfl, h2⟩
        obtain ⟨t, rfl⟩ := (ih cs).mp h2
        exact ⟨t, rfl⟩
      · rintro ⟨t, ht⟩
        obtain ⟨h1, h2⟩ := List.cons.inj ht
        exact ⟨h1.symm, (ih cs).mpr ⟨t, h2⟩⟩

theorem leadsWith_append_self : ∀ (p t : List Char), leadsWith p (p ++ t) = true := by
  intro p t
  induction p with
  | nil => rfl
  | cons a as ih => simp [leadsWith, ih]

theorem removeFirstSub_prepend (p t : List Char) : removeFirstSub p (p ++ t) = t := by
  cases p with
  | nil =>
    cases t with
    | nil => rfl
    | cons c cs =>
      rw [List.nil_append, removeFirstSub]
      simp [leadsWith]
  | cons a as =>
    rw [List.cons_append, removeFirstSub,
      if_pos (by rw [← List.cons_append]; exact leadsWith_append_self (a :: as) t)]
    show List.drop (a :: as).length (a :: (as ++ t)) = t
    rw [List.length_cons, List.drop_succ_cons, List.drop_left]

theorem split_unique (c : Char) : ∀ (A C B D : List Char),
    (∀ x ∈ A, x ≠ c) → (∀ x ∈ C, x ≠ c) → A ++ c :: B = C ++ c :: D → A = C ∧ B = D := by
  intro A
  induction A with
  | nil =>
    intro C B D _ hC h
    cases C with
    | nil =>
      rw [List.nil_append, List.nil_append] at h
      exact ⟨rfl, (List.cons.inj h).2⟩
    | cons x xs =>
      rw [List.nil_append, List.cons_append] at h
      obtain ⟨h1, -⟩ := List.cons.inj h
      exact absurd h1.symm (hC x (by simp))
  | cons a as ih =>
    intro C B D hA hC h
    cases C with
    | nil =>
      rw [List.cons_append, List.nil_append] at h
      obtain ⟨h1, -⟩ := List.cons.inj h
      exact absurd h1 (hA a (by simp))
    | cons x xs =>
      rw [List.cons_append, List.cons_append] at h
      obtain ⟨h1, h2⟩ := List.cons.inj h
      obtain ⟨hAC, hBD⟩ := ih xs B D (fun y hy => hA y (by simp [hy]))
        (fun y hy => hC y (by simp [hy])) h2
      exact ⟨by rw [h1, hAC], hBD⟩

theorem removeFirstSub_slashfree (p : List Char) (hp : '/' ∈ p) :
    ∀ B, (∀ x ∈ B, x ≠ '/') → removeFirstSub p B = B := by
  intro B
  induction B with
  | nil => intro _; rfl
  | cons b bs ih =>
    intro hB
    rw [removeFirstSub, if_neg ?_]
    · rw [ih (fun x hx => hB x (by simp [hx]))]
    · intro hl
      obtain ⟨t, ht⟩ := (leadsWith_iff p _).mp hl
      have hmem : '/' ∈ b :: bs := ht ▸ List.mem_append.mpr (Or.inl hp)
      exact hB '/' hmem rfl

theorem removeFirstSub_seg (Q : List Char) (hQ : ∀ x ∈ Q, x ≠ '/') :
    ∀ (A : List Char), (∀ x ∈ A, x ≠ '/') → ∀ r,
      removeFirstSub (Q ++ ['/']) (A ++ '/' :: (Q ++ '/' :: r)) = A ++ '/' :: r := by
  intro A
  induction A with
  | nil =>
    intro _ r
    rw [List.nil_append, List.nil_append]
    cases Q with
    | nil =>
      rw [removeFirstSub, if_pos (by simp [leadsWith])]
      rfl
    | cons q qs =>
      rw [removeFirstSub, if_neg ?_]
      · rw [show (q :: qs) ++ '/' :: r = ((q :: qs) ++ ['/']) ++ r from by
          rw [List.append_assoc]; rfl]
        rw [removeFirstSub_prepend]
      · simp only [List.cons_append, leadsWith, Bool.and_eq_true, beq_iff_eq]
        rintro ⟨hcontra, -⟩
        exact hQ q (by simp) hcontra
  | cons a as ih =>
    intro hA r
    rw [List.cons_append, removeFirstSub]
    by_cases hl : leadsWith (Q ++ ['/']) (a :: (as ++ '/' :: (Q ++ '/' :: r))) = true
    · rw [if_pos hl]
      obtain ⟨t, ht⟩ := (leadsWith_iff _ _).mp hl
      have h2 : (a :: as) ++ '/' :: (Q ++ '/' :: r) = Q ++ '/' :: t := by
        rw [List.cons_append, ht, List.append_assoc, List.singleton_append]
      obtain ⟨hAQ, hrest⟩ := split_unique '/' (a :: as) Q _ _ hA hQ h2
      rw [show a :: (as ++ '/' :: (Q ++ '/' :: r)) =
        (Q ++ ['/']) ++ (Q ++ '/' :: r) from by
          rw [← List.cons_append, hAQ, List.append_assoc, List.singleton_append]]
      rw [List.drop_left, ← hAQ, List.cons_append]
    · rw [if_neg hl]
      rw [ih (fun x hx => hA x (by simp [hx])) r, List.cons_append]

theorem removeFirstSub_skip (Q : List Char) (hQne : Q ≠ []) (hQ : ∀ x ∈ Q, x ≠ '/') :
    ∀ (A : List Char), (∀ x ∈ A, x ≠ '/') → (∀ w, A ≠ w ++ Q) →
    ∀ B, (∀ x ∈ B, x ≠ '/') →
      removeFirstSub (Q ++ ['/']) (A ++ '/' :: B) = A ++ '/' :: B := by
  intro A
  induction A with
  | nil =>
    intro _ _ B hB
    obtain ⟨q, qs, rfl⟩ : ∃ q qs, Q = q :: qs := by
      cases Q with
      | nil => exact absurd rfl hQne
      | cons q qs => exact ⟨q, qs, rfl⟩
    rw [List.nil_append, removeFirstSub, if_neg ?_]
    · rw [removeFirstSub_slashfree _ (by simp) B hB]
    · simp only [List.cons_append, leadsWith, Bool.and_eq_true, beq_iff_eq]
      rintro ⟨hcontra, -⟩
      exact hQ q (by simp) hcontra
  | cons a as ih =>
    intro hA hw B hB
    rw [List.cons_append, removeFirstSub]
    rw [if_neg ?_]
    · rw [ih (fun x hx => hA x (by simp [hx]))
        (fun w hww => hw (a :: w) (by rw [hww, List.cons_append])) B hB]
    · intro hl
      obtain ⟨t, ht⟩ := (leadsWith_iff _ _).mp hl
      have h2 : (a :: as) ++ '/' :: B = Q ++ '/' :: t := by
        rw [List.cons_append, ht, List.append_assoc, List.singleton_append]
      obtain ⟨hAQ, -⟩ := split_unique '/' (a :: as) Q _ _ hA hQ h2
      exact hw [] (by rw [List.nil_append]; exact hAQ)

theorem splitAtFirst_append (c : Char) : ∀ (A B : List Char), (∀ x ∈ A, x ≠ c) →
    splitAtFirst c (A ++ c :: B) = some (A, B) := by
  intro A
  induction A with
  | nil =>
    intro B _
    rw [List.nil_append, splitAtFirst, if_pos (by simp)]
  | cons a as ih =>
    intro B hA
    rw [List.cons_append, splitAtFirst,
      if_neg (by simp [hA a (by simp)]), ih B (fun x hx => hA x (by simp [hx]))]

theorem splitAtFirst_not_mem (c : Char) : ∀ l, (∀ x ∈ l, x ≠ c) → splitAtFirst c l = none := by
  intro l
  induction l with
  | nil => intro _; rfl
  | cons x xs ih =>
    intro h
    rw [splitAtFirst, if_neg (by simp [h x (by simp)]), ih (fun y hy => h y (by simp [hy]))]

theorem dropWhile_eq_self_head (p : Char → Bool) (l : List Char)
    (h : ∀ x, l.head? = some x → p x = false) : l.dropWhile p = l := by
  cases l with
  | nil => rfl
  | cons a t =>
    rw [List.dropWhile_cons, h a rfl]
    simp

theorem sanitizeUri_eq_self (l : List Char)
    (hh : ∀ x, l.head? = some x → (x.isWhitespace || x == '/') = false)
    (hl : ∀ x, l.getLast? = some x → (x.isWhitespace || x == '/') = false) :
    sanitizeUri l = l := by
  unfold sanitizeUri
  rw [dropWhile_eq_self_head _ l hh,
    dropWhile_eq_self_head _ l.reverse (fun x hx => hl x (by rwa [List.head?_reverse] at hx)),
    List.reverse_reverse]

theorem mem_of_getLast_some (l : List Char) (a : Char) (h : l.getLast? = some a) : a ∈ l := by
  obtain ⟨hne, heq⟩ := List.mem_getLast?_eq_getLast (x := a) (by rw [Option.mem_def, h])
  rw [heq]
  exact List.getLast_mem hne

theorem jsTruthyStr_some_of_ne (x : String) (h : x.data ≠ []) :
    jsTruthyStr (some x) = true := by
  simp only [jsTruthyStr, Bool.not_eq_eq_eq_not, Bool.not_true, beq_eq_false_iff_ne, ne_eq]
  intro hx
  exact h (by rw [hx])

theorem str_data_inj (a b : String) (h : a.data = b.data) : a = b := by
  cases a
  cases b
  cases h
  rfl

theorem getLast?_cons_of_ne (a : Char) (l : List Char) (h : l ≠ []) :
    (a :: l).getLast? = l.getLast? := by
  rw [show a :: l = [a] ++ l from rfl]
  exact List.getLast?_append_of_ne_nil [a] h

theorem wfName_bad_last (x : String) (hx : wfName x) :
    ∀ c, x.data.getLast? = some c → (c.isWhitespace || c == '/') = false := by
  intro c hc
  obtain ⟨h1, -, h3⟩ := hx.2 c (mem_of_getLast_some _ _ hc)
  simp [h3, h1]

theorem decode_encode_serviceId (sid : String) (hsid : wfName sid) :
    Uri.decode (Uri.encode { serviceId := some sid }) = { serviceId := some sid } := by
  have henc : Uri.encode { serviceId := some sid } = "service/" ++ sid := by
    unfold Uri.encode
    rw [if_neg (by simp [jsTruthyStr]), if_pos (jsTruthyStr_some_of_ne sid hsid.1)]
    rfl
  have hdata : ("service/" ++ sid).data = "service".data ++ '/' :: sid.data := by
    rw [strData_append, show "service/".data = "service".data ++ ['/'] from by decide,
      List.append_assoc, List.singleton_append]
  have hsan : sanitizeUri ("service".data ++ '/' :: sid.data) =
      "service".data ++ '/' :: sid.data := by
    apply sanitizeUri_eq_self
    · intro x hx
      rw [show "service".data = 's' :: "ervice".data from by decide, List.cons_append] at hx
      obtain rfl : 's' = x := Option.some.inj hx
      decide
    · intro x hx
      rw [List.getLast?_append_cons, getLast?_cons_of_ne '/' sid.data hsid.1] at hx
      exact wfName_bad_last sid hsid x hx
  have hB : ∀ x ∈ sid.data, x ≠ '/' := fun x hx => (hsid.2 x hx).1
  have hrm1 : removeFirstSub "folders/".data ("service".data ++ '/' :: sid.data) =
      "service".data ++ '/' :: sid.data := by
    rw [show "folders/".data = "folders".data ++ ['/'] from by decide]
    refine removeFirstSub_skip "folders".data (by decide) (by decide) "service".data
      (by decide) ?_ sid.data hB
    intro w hww
    have hlen := congrArg List.length hww
    rw [List.length_append] at hlen
    have : "service".data.length = 7 := by decide
    have h7 : "folders".data.length = 7 := by decide
    rw [this, h7] at hlen
    obtain rfl : w = [] := List.length_eq_zero.mp (by omega)
    rw [List.nil_append] at hww
    exact absurd hww (by decide)
  have hrm2 : removeFirstSub "services/".data ("service".data ++ '/' :: sid.data) =
      "service".data ++ '/' :: sid.data := by
    rw [show "services/".data = "services".data ++ ['/'] from by decide]
    refine removeFirstSub_skip "services".data (by decide) (by decide) "service".data
      (by decide) ?_ sid.data hB
    intro w hww
    have hlen := congrArg List.length hww
    rw [List.length_append] at hlen
    have h7 : "service".data.length = 7 := by decide
    have h8 : "services".data.length = 8 := by decide
    rw [h7, h8] at hlen
    omega
  have hmatch : matchLocator ("service".data ++ '/' :: sid.data) =
      some ("service".data, sid.data, none) := by
    unfold matchLocator
    simp only [splitAtFirst_append '/' "service".data sid.data (by decide),
      splitAtFirst_not_mem '[' sid.data (fun x hx => (hsid.2 x hx).2.1)]
    rw [if_neg (by decide), if_neg hsid.1]
  rw [henc]
  show Uri.decodeCh ("service/" ++ sid).data = _
  rw [hdata]
  unfold Uri.decodeCh
  rw [hsan, hrm1, hrm2]
  simp only [hmatch]
  rw [if_neg (by decide), if_pos (by decide), strMk_data]

theorem decode_encode_versionId (vid : String) (hvid : wfName vid) :
    Uri.decode (Uri.encode { versionId := some vid }) = { versionId := some vid } := by
  have henc : Uri.encode { versionId := some vid } = "version/" ++ vid := by
    unfold Uri.encode
    rw [if_pos (jsTruthyStr_some_of_ne vid hvid.1)]
    rfl
  have hdata : ("version/" ++ vid).data = "version".data ++ '/' :: vid.data := by
    rw [strData_append, show "version/".data = "version".data ++ ['/'] from by decide,
      List.append_assoc, List.singleton_append]
  have hsan : sanitizeUri ("version".data ++ '/' :: vid.data) =
      "version".data ++ '/' :: vid.data := by
    apply sanitizeUri_eq_self
    · intro x hx
      rw [show "version".data = 'v' :: "ersion".data from by decide, List.cons_append] at hx
      obtain rfl : 'v' = x := Option.some.inj hx
      decide
    · intro x hx
      rw [List.getLast?_append_cons, getLast?_cons_of_ne '/' vid.data hvid.1] at hx
      exact wfName_bad_last vid hvid x hx
  have hB : ∀ x ∈ vid.data, x ≠ '/' := fun x hx => (hvid.2 x hx).1
  have hrm1 : removeFirstSub "folders/".data ("version".data ++ '/' :: vid.data) =
      "version".data ++ '/' :: vid.data := by
    rw [show "folders/".data = "folders".data ++ ['/'] from by decide]
    refine removeFirstSub_skip "folders".data (by decide) (by decide) "version".data
      (by decide) ?_ vid.data hB
    intro w hww
    have hlen := congrArg List.length hww
    rw [List.length_append] at hlen
    have h7a : "version".data.length = 7 := by decide
    have h7b : "folders".data.length = 7 := by decide
    rw [h7a, h7b] at hlen
    obtain rfl : w = [] := List.length_eq_zero.mp (by omega)
    rw [List.nil_append] at hww
    exact absurd hww (by decide)
  have hrm2 : removeFirstSub "services/".data ("version".data ++ '/' :: vid.data) =
      "version".data ++ '/' :: vid.data := by
    rw [show "services/".data = "services".data ++ ['/'] from by decide]
    refine removeFirstSub_skip "services".data (by decide) (by decide) "version".data
      (by decide) ?_ vid.data hB
    intro w hww
    have hlen := congrArg List.length hww
    rw [List.length_append] at hlen
    have h7 : "version".data.length = 7 := by decide
    have h8 : "services".data.length = 8 := by decide
    rw [h7, h8] at hlen
    omega
  have hmatch : matchLocator ("version".data ++ '/' :: vid.data) =
      some ("version".data, vid.data, none) := by
    unfold matchLocator
    simp only [splitAtFirst_append '/' "version".data vid.data (by decide),
      splitAtFirst_not_mem '[' vid.data (fun x hx => (hvid.2 x hx).2.1)]
    rw [if_neg (by decide), if_neg hvid.1]
  rw [henc]
  show Uri.decodeCh ("version/" ++ vid).data = _
  rw [hdata]
  unfold Uri.decodeCh
  rw [hsan, hrm1, hrm2]
  simp only [hmatch]
  rw [if_pos (by decide), strMk_data]

theorem decode_encode_folder_service (f s : String) (v : Option String)
    (hf : wfName f) (hs : wfName s) (hfv : f ≠ "version") (hfs : f ≠ "service")
    (hv : ∀ y, v = some y → wfName y) :
    Uri.decode (Uri.encode { folder := some f, service := some s, version := v }) =
      { folder := some f, service := some s, version := v } := by
  have hfA : ∀ x ∈ f.data, x ≠ '/' := fun x hx => (hf.2 x hx).1
  cases v with
  | none =>
    have henc : Uri.encode { folder := some f, service := some s, version := none } =
        "folders/" ++ f ++ "/services" ++ "/" ++ s ++ "" := by
      unfold Uri.encode
      rw [if_neg (by simp [jsTruthyStr]), if_neg (by simp [jsTruthyStr]),
        if_pos ⟨jsTruthyStr_some_of_ne f hf.1, jsTruthyStr_some_of_ne s hs.1⟩]
      rfl
    have hdata : ("folders/" ++ f ++ "/services" ++ "/" ++ s ++ "").data =
        "folders/".data ++ (f.data ++ ('/' :: ("services".data ++ ('/' :: s.data)))) := by
      simp only [strData_append, List.append_assoc,
        show "/services".data = '/' :: "services".data from by decide,
        show "/".data = ['/'] from by decide,
        show ("".data : List Char) = [] from rfl,
        List.append_nil, List.nil_append, List.singleton_append, List.cons_append]
    have hsan : sanitizeUri
        ("folders/".data ++ (f.data ++ ('/' :: ("services".data ++ ('/' :: s.data))))) =
        "folders/".data ++ (f.data ++ ('/' :: ("services".data ++ ('/' :: s.data)))) := by
      have hre : "folders/".data ++ (f.data ++ ('/' :: ("services".data ++ ('/' :: s.data)))) =
          ("folders/".data ++ f.data ++ ('/' :: "services".data)) ++ '/' :: s.data := by
        simp only [List.append_assoc, List.cons_append]
      apply sanitizeUri_eq_self
      · intro x hx
        rw [show "folders/".data = 'f' :: "olders/".data from by decide,
          List.cons_append] at hx
        obtain rfl : 'f' = x := Option.some.inj hx
        decide
      · intro x hx
        rw [hre, List.getLast?_append_cons, getLast?_cons_of_ne '/' s.data hs.1] at hx
        exact wfName_bad_last s hs x hx
    have hrm1 : removeFirstSub "folders/".data
        ("folders/".data ++ (f.data ++ ('/' :: ("services".data ++ ('/' :: s.data))))) =
        f.data ++ ('/' :: ("services".data ++ ('/' :: s.data))) :=
      removeFirstSub_prepend _ _
    have hrm2 : removeFirstSub "services/".data
        (f.data ++ ('/' :: ("services".data ++ ('/' :: s.data)))) =
        f.data ++ '/' :: s.data := by
      rw [show "services/".data = "services".data ++ ['/'] from by decide]
      exact removeFirstSub_seg "services".data (by decide) f.data hfA s.data
    have hmatch : matchLocator (f.data ++ '/' :: s.data) = some (f.data, s.data, none) := by
      unfold matchLocator
      simp only [splitAtFirst_append '/' f.data s.data hfA,
        splitAtFirst_not_mem '[' s.data (fun x hx => (hs.2 x hx).2.1)]
      rw [if_neg hf.1, if_neg hs.1]
    rw [henc]
    show Uri.decodeCh ("folders/" ++ f ++ "/services" ++ "/" ++ s ++ "").data = _
    rw [hdata]
    unfold Uri.decodeCh
    rw [hsan, hrm1, hrm2]
    simp only [hmatch]
    rw [if_neg (fun h => hfv (str_data_inj f "version" h)),
      if_neg (fun h => hfs (str_data_inj f "service" h)), strMk_data, strMk_data]
  | some w =>
    have hw : wfName w := hv w rfl
    obtain ⟨wd⟩ := w
    cases wd with
    | nil => exact absurd rfl hw.1
    | cons c cs =>
    have henc : Uri.encode
        { folder := some f, service := some s, version := some (String.mk (c :: cs)) } =
        "folders/" ++ f ++ "/services" ++ "/" ++ s ++
          ("[" ++ String.mk (c :: cs) ++ "]") := by
      unfold Uri.encode
      rw [if_neg (by simp [jsTruthyStr]), if_neg (by simp [jsTruthyStr]),
        if_pos ⟨jsTruthyStr_some_of_ne f hf.1, jsTruthyStr_some_of_ne s hs.1⟩,
        if_pos (jsTruthyStr_some_of_ne (String.mk (c :: cs)) hw.1)]
      rfl
    have hdata : ("folders/" ++ f ++ "/services" ++ "/" ++ s ++
        ("[" ++ String.mk (c :: cs) ++ "]")).data =
        "folders/".data ++ (f.data ++ ('/' :: ("services".data ++
          ('/' :: (s.data ++ '[' :: ((c :: cs) ++ [']'])))))) := by
      simp only [strData_append, List.append_assoc,
        show "/services".data = '/' :: "services".data from by decide,
        show "/".data = ['/'] from by decide,
        show "[".data = ['['] from by decide,
        show "]".data = [']'] from by decide,
        List.nil_append, List.singleton_append, List.cons_append]
    have hsan : sanitizeUri
        ("folders/".data ++ (f.data ++ ('/' :: ("services".data ++
          ('/' :: (s.data ++ '[' :: ((c :: cs) ++ [']']))))))) =
        "folders/".data ++ (f.data ++ ('/' :: ("services".data ++
          ('/' :: (s.data ++ '[' :: ((c :: cs) ++ [']'])))))) := by
      have hre : "folders/".data ++ (f.data ++ ('/' :: ("services".data ++
            ('/' :: (s.data ++ '[' :: ((c :: cs) ++ [']'])))))) =
          ("folders/".data ++ f.data ++ ('/' :: "services".data) ++ ('/' :: s.data)) ++
            '[' :: ((c :: cs) ++ [']']) := by
        simp only [List.append_assoc, List.cons_append]
      apply sanitizeUri_eq_self
      · intro x hx
        rw [show "folders/".data = 'f' :: "olders/".data from by decide,
          List.cons_append] at hx
        obtain rfl : 'f' = x := Option.some.inj hx
        decide
      · intro x hx
        rw [hre, List.getLast?_append_cons,
          getLast?_cons_of_ne '[' _ (by simp), List.getLast?_concat] at hx
        obtain rfl : ']' = x := Option.some.inj hx
        decide
    have hrm1 : removeFirstSub "folders/".data
        ("folders/".data ++ (f.data ++ ('/' :: ("services".data ++
          ('/' :: (s.data ++ '[' :: ((c :: cs) ++ [']']))))))) =
        f.data ++ ('/' :: ("services".data ++
          ('/' :: (s.data ++ '[' :: ((c :: cs) ++ [']']))))) :=
      removeFirstSub_prepend _ _
    have hrm2 : removeFirstSub "services/".data
        (f.data ++ ('/' :: ("services".data ++
          ('/' :: (s.data ++ '[' :: ((c :: cs) ++ [']'])))))) =
        f.data ++ '/' :: (s.data ++ '[' :: ((c :: cs) ++ [']'])) := by
      rw [show "services/".data = "services".data ++ ['/'] from by decide]
      exact removeFirstSub_seg "services".data (by decide) f.data hfA
        (s.data ++ '[' :: ((c :: cs) ++ [']']))
    have hmatch : matchLocator (f.data ++ '/' :: (s.data ++ '[' :: ((c :: cs) ++ [']']))) =
        some (f.data, s.data, some (c :: cs)) := by
      unfold matchLocator
      simp only [splitAtFirst_append '/' f.data
        (s.data ++ '[' :: ((c :: cs) ++ [']'])) hfA,
        splitAtFirst_append '[' s.data ((c :: cs) ++ [']'])
          (fun x hx => (hs.2 x hx).2.1)]
      rw [if_neg hf.1, if_neg hs.1, if_pos (by rw [List.getLast?_concat]),
        List.dropLast_concat]
    rw [henc]
    show Uri.decodeCh ("folders/" ++ f ++ "/services" ++ "/" ++ s ++
      ("[" ++ String.mk (c :: cs) ++ "]")).data = _
    rw [hdata]
    unfold Uri.decodeCh
    rw [hsan, hrm1, hrm2]
    simp only [hmatch]
    rw [if_neg (fun h => hfv (str_data_inj f "version" h)),
      if_neg (fun h => hfs (str_data_inj f "service" h)), strMk_data, strMk_data]

/-- **C4.** `Uri.decode (Uri.encode locator)` is the identity on the three
locator shapes the encoder actually emits — folder+service (optionally with a
nonempty version), serviceId only, and versionId only — for well-formed name
components (nonempty, no `/`, no `[`, no whitespace) with the folder not named
`version` or `service`. The fourth claimed shape, proxy only, does not round-trip:
`Uri.encode` never reads the proxy field (see the counterexample). -/
theorem uri_encode_decode (f s : String) (v : Option String) (sid vid : String)
    (hf : wfName f) (hs : wfName s) (hfv : f ≠ "version") (hfs : f ≠ "service")
    (hv : ∀ y, v = some y → wfName y) (hsid : wfName sid) (hvid : wfName vid) :
    Uri.decode (Uri.encode { folder := some f, service := some s, version := v }) =
      { folder := some f, service := some s, version := v } ∧
    Uri.decode (Uri.encode { serviceId := some sid }) = { serviceId := some sid } ∧
    Uri.decode (Uri.encode { versionId := some vid }) = { versionId := some vid } :=
  ⟨decode_encode_folder_service f s v hf hs hfv hfs hv,
   decode_encode_serviceId sid hsid,
   decode_encode_versionId vid hvid⟩

/-- **C4 witness**: concrete round-trips for all three encodable shapes. -/
theorem uri_encode_decode_witness :
    Uri.decode (Uri.encode { folder := some "fold1", service := some "svc1", version := some "0.4.2" }) =
      { folder := some "fold1", service := some "svc1", version := some "0.4.2" } ∧
    Uri.decode (Uri.encode { serviceId := some "id-a" }) = { serviceId := some "id-a" } ∧
    Uri.decode (Uri.encode { versionId := some "id-b" }) = { versionId := some "id-b" } :=
  uri_encode_decode "fold1" "svc1" (some "0.4.2") "id-a" "id-b"
    ⟨by decide, by decide⟩ ⟨by decide, by decide⟩ (by decide) (by decide)
    (fun y hy => Option.some.inj hy ▸ (⟨by decide, by decide⟩ : wfName "0.4.2"))
    ⟨by decide, by decide⟩ ⟨by decide, by decide⟩

/-- **C4 counterexample**: a proxy-only locator does not round-trip — the
encoder ignores the proxy field and emits the empty string, which decodes to
the empty locator. -/
theorem uri_encode_decode_cex :
    Uri.decode (Uri.encode { proxy := some "custom/endpoint" }) = {} ∧
    ({} : UriParams) ≠ { proxy := some "custom/endpoint" } := by
  constructor
  · decide
  · decide
